import Mathlib

/-!
Verification of the territory-claiming game engine (the PeerContext rules
engine): data model, tile claiming, construct economy, resource ticking and
victory determination, shallowly embedded as pure Lean functions.

Numbers that are JavaScript floats in the source (gold, units, rates, costs)
are modelled as rationals; timestamps as naturals.  A Record keyed by player
id is modelled as a list of players carrying their ids, in insertion order.
Fallible record and array accesses are modelled with Option.
-/

namespace WTO2

/-- Grid side length, from GRID_SIZE in the types module. -/
def GRID_SIZE : Nat := 24

/-- Maximum number of players, from MAX_PLAYERS in the types module. -/
def MAX_PLAYERS : Nat := 3

/-- Match duration in milliseconds, from GAME_DURATION_MS (5 * 60 * 1000). -/
def GAME_DURATION_MS : Nat := 5 * 60 * 1000

/-- The Faction enumeration. -/
inductive Faction where
  | HUMANS
  | ALIENS
  | ROBOTS
deriving DecidableEq

/-- The ConstructType enumeration; NONE is a sentinel, never a placed value. -/
inductive ConstructType where
  | GOLD
  | UNIT
  | DEFENSE
  | NONE
deriving DecidableEq

/-- A coordinate pair as stored in a player's tiles array. -/
structure Coord where
  x : Nat
  y : Nat
deriving DecidableEq

/-- A construct placed on a tile: its type and the id of the builder. -/
structure Construct where
  type : ConstructType
  ownerId : Option String
deriving DecidableEq

/-- One grid cell. -/
structure Tile where
  x : Nat
  y : Nat
  ownerId : Option String
  color : Option String
  construct : Option Construct
  defenseBonus : ℚ
deriving DecidableEq

/-- A player record. -/
structure Player where
  id : String
  name : String
  isReady : Bool
  color : String
  faction : Faction
  gold : ℚ
  units : ℚ
  goldRate : ℚ
  unitRate : ℚ
  tiles : List Coord
deriving DecidableEq

/-- The authoritative game snapshot. -/
structure GameState where
  gameStarted : Bool
  currentTurn : Option String
  grid : List (List Tile)
  players : List Player
  gameEndTime : Option Nat
  gameOver : Bool
  winner : Option String
deriving DecidableEq

/-- Access grid element at row y, column x, as in the source expression
grid followed by index y then index x. -/
def getTile (grid : List (List Tile)) (x y : Nat) : Option Tile :=
  (grid.get? y).bind (fun row => row.get? x)

/-- Replace the element at a given index by applying f, leaving the list
unchanged when the index is out of bounds; models an in-place array write. -/
def listUpdate {α : Type} : List α → Nat → (α → α) → List α
  | [], _, _ => []
  | a :: t, 0, f => f a :: t
  | a :: t, Nat.succ n, f => a :: listUpdate t n f

/-- Apply f to the tile at row y, column x of the grid. -/
def updateGrid (grid : List (List Tile)) (x y : Nat) (f : Tile → Tile) :
    List (List Tile) :=
  listUpdate grid y (fun row => listUpdate row x f)

/-- Record lookup by player id: the players record indexed at pid. -/
def findPlayer (ps : List Player) (pid : String) : Option Player :=
  ps.find? (fun p => p.id == pid)

/-- The per-element form of a keyed record write. -/
def updFn (pid : String) (f : Player → Player) (p : Player) : Player :=
  if p.id = pid then f p else p

/-- Record write by player id: mutate the entry keyed pid by f. -/
def updatePlayer (ps : List Player) (pid : String) (f : Player → Player) :
    List Player :=
  ps.map (updFn pid f)

/-- The adjacency test from claimTile: Manhattan distance 1 in the same row
or the same column. -/
def isAdjacentCoord (c : Coord) (x y : Nat) : Bool :=
  (((c.x : Int) - (x : Int)).natAbs == 1 && c.y == y) ||
  (((c.y : Int) - (y : Int)).natAbs == 1 && c.x == x)

/-- Whether any tile in the acting player's tiles array is adjacent to
the target coordinate. -/
def hasAdjacentTile (p : Player) (x y : Nat) : Bool :=
  p.tiles.any (fun c => isAdjacentCoord c x y)

/-- Whether the tile is owned by somebody other than pid, the condition
written ownerId not null and not the caller in claimTile. -/
def isContested (t : Tile) (pid : String) : Bool :=
  match t.ownerId with
  | some q => q != pid
  | none => false

/-- The player-record mutations of a successful claimTile, in source order:
subtract gold, subtract units when contested, drop the tile from the
previous owner's tiles when contested, append the tile to the caller's
tiles. -/
def claimPlayers (ps : List Player) (myId : String) (x y : Nat)
    (goldCost unitCost : ℚ) (tile : Tile) : List Player :=
  let ps1 := updatePlayer ps myId (fun p => { p with gold := p.gold - goldCost })
  let ps2 := if isContested tile myId then
      updatePlayer ps1 myId (fun p => { p with units := p.units - unitCost })
    else ps1
  let ps3 := match tile.ownerId with
    | some prev =>
        if prev ≠ myId then
          updatePlayer ps2 prev (fun p =>
            { p with tiles := p.tiles.filter (fun c => !(c.x == x && c.y == y)) })
        else ps2
    | none => ps2
  updatePlayer ps3 myId (fun p => { p with tiles := p.tiles ++ [⟨x, y⟩] })

/-- The grid mutation of a successful claimTile: the target tile's owner and
color become the caller's. -/
def claimGrid (grid : List (List Tile)) (myId : String) (x y : Nat)
    (color : String) : List (List Tile) :=
  updateGrid grid x y (fun t => { t with ownerId := some myId, color := some color })

/-- The full successful-claim state transition, including the win-by-
elimination check on the mutated players. -/
def claimEffect (gs : GameState) (myId : String) (x y : Nat)
    (goldCost unitCost : ℚ) (tile : Tile) (player : Player) : GameState :=
  let ps4 := claimPlayers gs.players myId x y goldCost unitCost tile
  let gsMid := { gs with grid := claimGrid gs.grid myId x y player.color,
                         players := ps4 }
  match ps4.filter (fun p => p.tiles.length > 0) with
  | [w] => { gsMid with gameOver := true, winner := some w.id }
  | _ => gsMid

/-- claimTile from the source: resource checks, adjacency check, then the
mutation; none models the JavaScript crash on a missing tile or player. -/
def claimTile (gs : GameState) (myId : String) (x y : Nat)
    (goldCost unitCost : ℚ) : Option (Bool × GameState) :=
  match getTile gs.grid x y, findPlayer gs.players myId with
  | some tile, some player =>
    if player.gold < goldCost then some (false, gs)
    else if isContested tile myId = true ∧ player.units < unitCost then
      some (false, gs)
    else if hasAdjacentTile player x y = false then some (false, gs)
    else some (true, claimEffect gs myId x y goldCost unitCost tile player)
  | _, _ => none

/-- The base gold cost switch in buildConstruct; none models the default
branch that rejects the NONE sentinel. -/
def constructGoldCost : ConstructType → Option ℚ
  | .GOLD => some 20
  | .UNIT => some 15
  | .DEFENSE => some 25
  | .NONE => none

/-- The player-record mutations of a successful buildConstruct: pay the gold
cost, then bump the matching rate. -/
def buildPlayers (ps : List Player) (myId : String) (goldCost : ℚ)
    (constructType : ConstructType) : List Player :=
  let ps1 := updatePlayer ps myId (fun p => { p with gold := p.gold - goldCost })
  if constructType = .GOLD then
    updatePlayer ps1 myId (fun p => { p with goldRate := p.goldRate + 1 })
  else if constructType = .UNIT then
    updatePlayer ps1 myId (fun p => { p with unitRate := p.unitRate + 1 })
  else ps1

/-- The grid mutations of a successful buildConstruct: place the construct,
then set the flat defense bonus for DEFENSE. -/
def buildGrid (grid : List (List Tile)) (x y : Nat) (myId : String)
    (constructType : ConstructType) : List (List Tile) :=
  let grid1 := updateGrid grid x y
    (fun t => { t with construct := some ⟨constructType, some myId⟩ })
  if constructType = .DEFENSE then
    updateGrid grid1 x y (fun t => { t with defenseBonus := 10 })
  else grid1

/-- buildConstruct from the source. -/
def buildConstruct (gs : GameState) (myId : String) (x y : Nat)
    (constructType : ConstructType) : Option (Bool × GameState) :=
  match getTile gs.grid x y with
  | none => none
  | some tile =>
    if tile.ownerId ≠ some myId then some (false, gs)
    else if tile.construct ≠ none then some (false, gs)
    else match constructGoldCost constructType with
      | none => some (false, gs)
      | some goldCost =>
        match findPlayer gs.players myId with
        | none => none
        | some player =>
          if player.gold < goldCost then some (false, gs)
          else some (true, { gs with
            grid := buildGrid gs.grid x y myId constructType,
            players := buildPlayers gs.players myId goldCost constructType })

/-- The player-record mutations of demolishConstruct: undo the rate effect
of the construct being removed. -/
def demolishPlayers (ps : List Player) (myId : String)
    (cType : ConstructType) : List Player :=
  if cType = .GOLD then
    updatePlayer ps myId (fun p => { p with goldRate := p.goldRate - 1 })
  else if cType = .UNIT then
    updatePlayer ps myId (fun p => { p with unitRate := p.unitRate - 1 })
  else ps

/-- The grid mutations of demolishConstruct: zero the defense bonus for
DEFENSE, then clear the construct. -/
def demolishGrid (grid : List (List Tile)) (x y : Nat)
    (cType : ConstructType) : List (List Tile) :=
  let grid1 :=
    if cType = .DEFENSE then
      updateGrid grid x y (fun t => { t with defenseBonus := 0 })
    else grid
  updateGrid grid1 x y (fun t => { t with construct := none })

/-- demolishConstruct from the source. -/
def demolishConstruct (gs : GameState) (myId : String) (x y : Nat) :
    Option (Bool × GameState) :=
  match getTile gs.grid x y with
  | none => none
  | some tile =>
    if tile.ownerId ≠ some myId then some (false, gs)
    else match tile.construct with
      | none => some (false, gs)
      | some c =>
        some (true, { gs with
          grid := demolishGrid gs.grid x y c.type,
          players := demolishPlayers gs.players myId c.type })

/-- Per-player accrual step of the resource ticker: eliminated players are
skipped, everyone else gains a tenth of each rate. -/
def tickPlayer (p : Player) : Player :=
  if p.tiles.length = 0 then p
  else { p with gold := p.gold + p.goldRate / 10,
                units := p.units + p.unitRate / 10 }

/-- The find-max-score loop of the game-end branch: running maximum starts
at zero, strict improvement replaces the winner. -/
def scanWinner : List Player → Nat → Option String → Option String
  | [], _, w => w
  | p :: rest, maxScore, w =>
    if p.tiles.length > maxScore then scanWinner rest p.tiles.length (some p.id)
    else scanWinner rest maxScore w

/-- One firing of the resource ticker (updateResources in the source):
at or past gameEndTime declare the winner and stop, otherwise accrue. -/
def updateResources (gs : GameState) (now : Nat) : GameState :=
  match gs.gameEndTime with
  | some endTime =>
    if now ≥ endTime then
      { gs with gameOver := true, winner := scanWinner gs.players 0 none }
    else { gs with players := gs.players.map tickPlayer }
  | none => { gs with players := gs.players.map tickPlayer }

/-- A freshly created unowned tile. -/
def mkBlankTile (x y : Nat) : Tile :=
  { x := x, y := y, ownerId := none, color := none, construct := none,
    defenseBonus := 0 }

/-- The empty GRID_SIZE by GRID_SIZE grid built at game start. -/
def mkEmptyGrid : List (List Tile) :=
  (List.range GRID_SIZE).map (fun y =>
    (List.range GRID_SIZE).map (fun x => mkBlankTile x y))

/-- The fixed starting coordinates from initializeGameState. -/
def startingPositions : List Coord :=
  [⟨3, 3⟩, ⟨GRID_SIZE - 4, GRID_SIZE - 4⟩, ⟨3, GRID_SIZE - 4⟩]

/-- Seed the grid with the starting tile of each indexed player whose index
has a starting position. -/
def seedGrid : List (List Tile) → List (Nat × Player) → List (List Tile)
  | grid, [] => grid
  | grid, (i, p) :: rest =>
    match startingPositions.get? i with
    | some pos =>
        seedGrid (updateGrid grid pos.x pos.y
          (fun t => { t with ownerId := some p.id, color := some p.color })) rest
    | none => seedGrid grid rest

/-- Per-player seeding at game start: players with a starting position get
exactly that tile, and Aliens get unit production. -/
def seedPlayer (i : Nat) (p : Player) : Player :=
  match startingPositions.get? i with
  | some pos =>
      { p with tiles := [pos],
               unitRate := if p.faction = .ALIENS then 1 else p.unitRate }
  | none => p

/-- initializeGameState from the source: empty grid, seeded starting tiles,
five-minute end time. -/
def initializeGameState (players : List Player) (now : Nat) : GameState :=
  { gameStarted := true
    currentTurn := players.head?.map (fun p => p.id)
    grid := seedGrid mkEmptyGrid players.enum
    players := players.enum.map (fun ip => seedPlayer ip.1 ip.2)
    gameEndTime := some (now + GAME_DURATION_MS)
    gameOver := false
    winner := none }

/-- The grid cell at the given coordinate is owned by pid. -/
def ownsAt (grid : List (List Tile)) (pid : String) (x y : Nat) : Prop :=
  ∃ t, getTile grid x y = some t ∧ t.ownerId = some pid

/-- The central cross-entity invariant: every player's tiles array, read as
a set, is exactly the set of grid coordinates whose owner is that player. -/
def tilesInv (gs : GameState) : Prop :=
  ∀ p ∈ gs.players, ∀ c : Coord, c ∈ p.tiles ↔ ownsAt gs.grid p.id c.x c.y

/-- Player ids are pairwise distinct, as forced by the Record representation
keyed by id. -/
def idsNodup (ps : List Player) : Prop :=
  (ps.map Player.id).Nodup

/-! ### List and lookup infrastructure -/

theorem get?_listUpdate {α : Type} (l : List α) (i j : Nat) (f : α → α) :
    (listUpdate l i f).get? j = if j = i then (l.get? j).map f else l.get? j := by
  induction l generalizing i j with
  | nil => simp [listUpdate]
  | cons a t ih =>
    cases i with
    | zero =>
      cases j with
      | zero => simp [listUpdate]
      | succ m => simp [listUpdate]
    | succ n =>
      cases j with
      | zero => simp [listUpdate]
      | succ m =>
        simp only [listUpdate, List.get?]
        rw [ih]
        by_cases h : m = n <;> simp [h]

theorem getTile_updateGrid (g : List (List Tile)) (x y : Nat) (f : Tile → Tile)
    (i j : Nat) :
    getTile (updateGrid g x y f) i j =
      if j = y then
        (if i = x then (getTile g x y).map f else getTile g i j)
      else getTile g i j := by
  unfold getTile updateGrid
  rw [get?_listUpdate]
  by_cases hy : j = y
  · subst hy
    simp only [eq_self_iff_true, if_true]
    cases hrow : g.get? j with
    | none => simp
    | some row =>
      simp only [Option.map_some', Option.some_bind]
      rw [get?_listUpdate]
      by_cases hx : i = x
      · subst hx; simp
      · simp [hx]
  · simp [hy]

theorem getTile_updateGrid_self (g : List (List Tile)) (x y : Nat)
    (f : Tile → Tile) :
    getTile (updateGrid g x y f) x y = (getTile g x y).map f := by
  simp [getTile_updateGrid]

theorem getTile_updateGrid_other (g : List (List Tile)) (x y : Nat)
    (f : Tile → Tile) (i j : Nat) (h : ¬ (i = x ∧ j = y)) :
    getTile (updateGrid g x y f) i j = getTile g i j := by
  rw [getTile_updateGrid]
  by_cases hy : j = y
  · subst hy
    have hx : ¬ i = x := fun hx => h ⟨hx, rfl⟩
    simp [hx]
  · simp [hy]

theorem findPlayer_some_id {ps : List Player} {pid : String} {p : Player}
    (h : findPlayer ps pid = some p) : p.id = pid := by
  have := List.find?_some h
  simpa using this

theorem findPlayer_mem {ps : List Player} {pid : String} {p : Player}
    (h : findPlayer ps pid = some p) : p ∈ ps :=
  List.mem_of_find?_eq_some h

theorem findPlayer_map {ps : List Player} {pid : String} (f : Player → Player)
    (hf : ∀ p, (f p).id = p.id) :
    findPlayer (ps.map f) pid = (findPlayer ps pid).map f := by
  induction ps with
  | nil => rfl
  | cons a t ih =>
    simp only [List.map_cons, findPlayer, List.find?]
    rw [hf a]
    cases h : (a.id == pid) with
    | true => simp
    | false => simpa [findPlayer] using ih

theorem updFn_id (pid : String) (f : Player → Player)
    (hf : ∀ p, (f p).id = p.id) (p : Player) : (updFn pid f p).id = p.id := by
  unfold updFn
  by_cases h : p.id = pid <;> simp [h, hf]

theorem findPlayer_updatePlayer_self {ps : List Player} {pid : String}
    (f : Player → Player) (hf : ∀ p, (f p).id = p.id) :
    findPlayer (updatePlayer ps pid f) pid = (findPlayer ps pid).map f := by
  unfold updatePlayer
  rw [findPlayer_map (updFn pid f) (updFn_id pid f hf)]
  cases h : findPlayer ps pid with
  | none => rfl
  | some p =>
    have hid := findPlayer_some_id h
    simp [updFn, hid]

theorem findPlayer_updatePlayer_other {ps : List Player} {pid q : String}
    (f : Player → Player) (hf : ∀ p, (f p).id = p.id) (hq : q ≠ pid) :
    findPlayer (updatePlayer ps pid f) q = findPlayer ps q := by
  unfold updatePlayer
  rw [findPlayer_map (updFn pid f) (updFn_id pid f hf)]
  cases h : findPlayer ps q with
  | none => rfl
  | some p =>
    have hid := findPlayer_some_id h
    have : ¬ p.id = pid := by rw [hid]; exact hq
    simp [updFn, this]

theorem updatePlayer_ids {ps : List Player} {pid : String}
    (f : Player → Player) (hf : ∀ p, (f p).id = p.id) :
    (updatePlayer ps pid f).map Player.id = ps.map Player.id := by
  unfold updatePlayer
  rw [List.map_map]
  exact List.map_congr_left (fun p _ => updFn_id pid f hf p)

/-! ### The per-player effect of a successful claim -/

/-- The net per-record-entry effect of the four keyed writes performed by a
successful claimTile, as one composed function. -/
def claimPlayerFn (myId : String) (x y : Nat) (goldCost unitCost : ℚ)
    (tile : Tile) (p : Player) : Player :=
  updFn myId (fun q => { q with tiles := q.tiles ++ [⟨x, y⟩] })
    ((match tile.ownerId with
      | some prev =>
          if prev ≠ myId then
            updFn prev (fun q =>
              { q with tiles := q.tiles.filter (fun c => !(c.x == x && c.y == y)) })
          else id
      | none => id)
      ((if isContested tile myId then
          updFn myId (fun q => { q with units := q.units - unitCost })
        else id)
        (updFn myId (fun q => { q with gold := q.gold - goldCost }) p)))

theorem claimPlayers_eq_map (ps : List Player) (myId : String) (x y : Nat)
    (goldCost unitCost : ℚ) (tile : Tile) :
    claimPlayers ps myId x y goldCost unitCost tile =
      ps.map (claimPlayerFn myId x y goldCost unitCost tile) := by
  unfold claimPlayers updatePlayer claimPlayerFn
  cases hOwn : tile.ownerId with
  | none =>
    by_cases hc : isContested tile myId = true
    · simp [hOwn, hc, List.map_map, Function.comp]
    · simp only [Bool.not_eq_true] at hc
      simp [hOwn, hc, List.map_map, Function.comp]
  | some prev =>
    by_cases hp : prev ≠ myId
    · by_cases hc : isContested tile myId = true
      · simp [hOwn, hp, hc, List.map_map, Function.comp]
      · simp only [Bool.not_eq_true] at hc
        simp [hOwn, hp, hc, List.map_map, Function.comp]
    · by_cases hc : isContested tile myId = true
      · simp [hOwn, hp, hc, List.map_map, Function.comp]
      · simp only [Bool.not_eq_true] at hc
        simp [hOwn, hp, hc, List.map_map, Function.comp]

theorem claimPlayerFn_id (myId : String) (x y : Nat) (goldCost unitCost : ℚ)
    (tile : Tile) (p : Player) :
    (claimPlayerFn myId x y goldCost unitCost tile p).id = p.id := by
  unfold claimPlayerFn
  cases tile.ownerId with
  | none =>
    by_cases hc : isContested tile myId <;>
      simp [hc, updFn_id, updFn] <;>
      split <;> simp_all [updFn]
  | some prev =>
    by_cases hp : prev ≠ myId <;>
      by_cases hc : isContested tile myId <;>
      simp [hp, hc, updFn] <;> split <;> simp_all [updFn] <;> split <;> simp_all

theorem claimPlayerFn_actor_contested {myId : String} {x y : Nat}
    {goldCost unitCost : ℚ} {tile : Tile} {prev : String} {p : Player}
    (hOwn : tile.ownerId = some prev) (hprev : prev ≠ myId) (hp : p.id = myId) :
    claimPlayerFn myId x y goldCost unitCost tile p =
      { p with gold := p.gold - goldCost, units := p.units - unitCost,
               tiles := p.tiles ++ [⟨x, y⟩] } := by
  have hc : isContested tile myId = true := by
    simp [isContested, hOwn, bne_iff_ne, hprev]
  have hne : myId ≠ prev := fun h => hprev h.symm
  simp [claimPlayerFn, hOwn, hprev, hc, updFn, hp, hne]

theorem claimPlayerFn_actor_uncontested {myId : String} {x y : Nat}
    {goldCost unitCost : ℚ} {tile : Tile} {p : Player}
    (hc : isContested tile myId = false) (hp : p.id = myId) :
    claimPlayerFn myId x y goldCost unitCost tile p =
      { p with gold := p.gold - goldCost, tiles := p.tiles ++ [⟨x, y⟩] } := by
  cases hOwn : tile.ownerId with
  | none => simp [claimPlayerFn, hOwn, hc, updFn, hp]
  | some prev =>
    have hpm : prev = myId := by
      by_contra hne
      rw [isContested, hOwn] at hc
      simp [bne_iff_ne, hne] at hc
    simp [claimPlayerFn, hOwn, hpm, hc, updFn, hp]

theorem claimPlayerFn_prev {myId : String} {x y : Nat}
    {goldCost unitCost : ℚ} {tile : Tile} {prev : String} {p : Player}
    (hOwn : tile.ownerId = some prev) (hprev : prev ≠ myId) (hp : p.id = prev) :
    claimPlayerFn myId x y goldCost unitCost tile p =
      { p with tiles := p.tiles.filter (fun c => !(c.x == x && c.y == y)) } := by
  have hc : isContested tile myId = true := by
    simp [isContested, hOwn, bne_iff_ne, hprev]
  have hne : p.id ≠ myId := hp ▸ hprev
  simp [claimPlayerFn, hOwn, hprev, hc, updFn, hp, hne]

theorem claimPlayerFn_other {myId : String} {x y : Nat}
    {goldCost unitCost : ℚ} {tile : Tile} {p : Player}
    (h1 : p.id ≠ myId) (h2 : tile.ownerId ≠ some p.id) :
    claimPlayerFn myId x y goldCost unitCost tile p = p := by
  cases hOwn : tile.ownerId with
  | none =>
    by_cases hc : isContested tile myId <;> simp [claimPlayerFn, hOwn, hc, updFn, h1]
  | some prev =>
    have hpp : prev ≠ p.id := by
      intro h; exact h2 (by rw [hOwn, h])
    have hpp' : ¬ p.id = prev := fun h => hpp h.symm
    by_cases hp : prev ≠ myId <;>
      by_cases hc : isContested tile myId <;>
      simp [claimPlayerFn, hOwn, hp, hc, updFn, h1, hpp']

theorem claimEffect_players (gs : GameState) (myId : String) (x y : Nat)
    (goldCost unitCost : ℚ) (tile : Tile) (player : Player) :
    (claimEffect gs myId x y goldCost unitCost tile player).players =
      claimPlayers gs.players myId x y goldCost unitCost tile := by
  unfold claimEffect
  dsimp only
  split <;> rfl

theorem claimEffect_grid (gs : GameState) (myId : String) (x y : Nat)
    (goldCost unitCost : ℚ) (tile : Tile) (player : Player) :
    (claimEffect gs myId x y goldCost unitCost tile player).grid =
      claimGrid gs.grid myId x y player.color := by
  unfold claimEffect
  dsimp only
  split <;> rfl

/-! ### Shape lemmas for claimTile -/

theorem isContested_true_iff (t : Tile) (pid : String) :
    isContested t pid = true ↔ ∃ q, t.ownerId = some q ∧ q ≠ pid := by
  rcases ho : t.ownerId with _ | q <;> simp [isContested, ho, bne_iff_ne]

theorem Coord.eq_mk_iff {c : Coord} {x y : Nat} :
    c = ⟨x, y⟩ ↔ c.x = x ∧ c.y = y := by
  cases c; simp

theorem claimTile_success_shape {gs : GameState} {myId : String} {x y : Nat}
    {goldCost unitCost : ℚ} {tile : Tile} {player : Player}
    (hT : getTile gs.grid x y = some tile)
    (hP : findPlayer gs.players myId = some player)
    (hg : ¬ player.gold < goldCost)
    (hu : ¬ (isContested tile myId = true ∧ player.units < unitCost))
    (ha : hasAdjacentTile player x y = true) :
    claimTile gs myId x y goldCost unitCost =
      some (true, claimEffect gs myId x y goldCost unitCost tile player) := by
  simp [claimTile, hT, hP, hg, hu, ha]

theorem claimTile_reject_shape {gs : GameState} {myId : String} {x y : Nat}
    {goldCost unitCost : ℚ} {tile : Tile} {player : Player}
    (hT : getTile gs.grid x y = some tile)
    (hP : findPlayer gs.players myId = some player)
    (ha : hasAdjacentTile player x y = false) :
    claimTile gs myId x y goldCost unitCost = some (false, gs) := by
  by_cases hg : player.gold < goldCost
  · simp [claimTile, hT, hP, hg]
  · by_cases hu : isContested tile myId = true ∧ player.units < unitCost
    · simp [claimTile, hT, hP, hg, hu]
    · simp [claimTile, hT, hP, hg, hu, ha]

theorem claimTile_cases {gs gs' : GameState} {myId : String} {x y : Nat}
    {goldCost unitCost : ℚ} {b : Bool}
    (h : claimTile gs myId x y goldCost unitCost = some (b, gs')) :
    (b = false ∧ gs' = gs) ∨
    (b = true ∧ ∃ tile player,
      getTile gs.grid x y = some tile ∧
      findPlayer gs.players myId = some player ∧
      ¬ player.gold < goldCost ∧
      ¬ (isContested tile myId = true ∧ player.units < unitCost) ∧
      hasAdjacentTile player x y = true ∧
      gs' = claimEffect gs myId x y goldCost unitCost tile player) := by
  unfold claimTile at h
  rcases hT : getTile gs.grid x y with _ | tile <;> rw [hT] at h
  · cases (findPlayer gs.players myId) <;> simp at h
  · rcases hP : findPlayer gs.players myId with _ | player <;> rw [hP] at h
    · simp at h
    · dsimp only at h
      by_cases hg : player.gold < goldCost
      · rw [if_pos hg] at h
        simp at h
        exact Or.inl ⟨h.1, h.2.symm⟩
      · rw [if_neg hg] at h
        by_cases hu : isContested tile myId = true ∧ player.units < unitCost
        · rw [if_pos hu] at h
          simp at h
          exact Or.inl ⟨h.1, h.2.symm⟩
        · rw [if_neg hu] at h
          by_cases ha : hasAdjacentTile player x y = false
          · rw [if_pos ha] at h
            simp at h
            exact Or.inl ⟨h.1, h.2.symm⟩
          · rw [if_neg ha] at h
            simp only [Option.some.injEq, Prod.mk.injEq] at h
            refine Or.inr ⟨h.1.symm, tile, player, rfl, rfl, hg, hu, ?_, h.2.symm⟩
            simpa using ha

/-! ### Ownership after the claim grid write -/

theorem ownsAt_claimGrid_self {g : List (List Tile)} {x y : Nat} {tile : Tile}
    (hT : getTile g x y = some tile) (myId col pid : String) :
    ownsAt (claimGrid g myId x y col) pid x y ↔ pid = myId := by
  unfold ownsAt claimGrid
  rw [getTile_updateGrid_self, hT]
  simp [eq_comm]

theorem ownsAt_claimGrid_other {g : List (List Tile)} {x y i j : Nat}
    (myId col pid : String) (h : ¬ (i = x ∧ j = y)) :
    ownsAt (claimGrid g myId x y col) pid i j ↔ ownsAt g pid i j := by
  unfold ownsAt claimGrid
  rw [getTile_updateGrid_other _ _ _ _ _ _ h]

/-! ### claimTile preserves the tiles invariant -/

theorem tilesInv_claimEffect {gs : GameState} {myId : String} {x y : Nat}
    {goldCost unitCost : ℚ} {tile : Tile} {player : Player}
    (hT : getTile gs.grid x y = some tile)
    (hInv : tilesInv gs) :
    tilesInv (claimEffect gs myId x y goldCost unitCost tile player) := by
  intro p' hp' c
  rw [claimEffect_players, claimPlayers_eq_map] at hp'
  obtain ⟨p, hp, rfl⟩ := List.mem_map.1 hp'
  rw [claimEffect_grid]
  rw [claimPlayerFn_id]
  by_cases hpm : p.id = myId
  · -- the acting player: its tile list gains the claimed coordinate
    have htiles : (claimPlayerFn myId x y goldCost unitCost tile p).tiles =
        p.tiles ++ [⟨x, y⟩] := by
      by_cases hc : isContested tile myId = true
      · obtain ⟨prev, hOwn, hprev⟩ := (isContested_true_iff tile myId).1 hc
        rw [claimPlayerFn_actor_contested hOwn hprev hpm]
      · simp only [Bool.not_eq_true] at hc
        rw [claimPlayerFn_actor_uncontested hc hpm]
    rw [htiles, hpm]
    by_cases hcxy : c.x = x ∧ c.y = y
    · constructor
      · intro _
        rw [hcxy.1, hcxy.2]
        exact (ownsAt_claimGrid_self hT myId player.color myId).2 rfl
      · intro _
        have : c = ⟨x, y⟩ := Coord.eq_mk_iff.2 hcxy
        simp [this]
    · rw [ownsAt_claimGrid_other myId player.color myId hcxy]
      have hne : c ≠ (⟨x, y⟩ : Coord) := fun h => hcxy (Coord.eq_mk_iff.1 h)
      have hmem : c ∈ p.tiles ++ [(⟨x, y⟩ : Coord)] ↔ c ∈ p.tiles := by
        simp [hne]
      rw [hmem, hInv p hp c, hpm]
  · by_cases hprev : tile.ownerId = some p.id
    · -- the previous owner of a contested tile: the coordinate is filtered out
      have hprevne : p.id ≠ myId := hpm
      have htiles : (claimPlayerFn myId x y goldCost unitCost tile p).tiles =
          p.tiles.filter (fun c => !(c.x == x && c.y == y)) := by
        rw [claimPlayerFn_prev hprev hprevne rfl]
      rw [htiles]
      by_cases hcxy : c.x = x ∧ c.y = y
      · constructor
        · intro hmem
          have := List.of_mem_filter hmem
          simp [hcxy.1, hcxy.2] at this
        · intro hOwns
          rw [hcxy.1, hcxy.2] at hOwns
          exact absurd ((ownsAt_claimGrid_self hT myId player.color p.id).1 hOwns) hpm
      · rw [ownsAt_claimGrid_other myId player.color p.id hcxy]
        rw [← hInv p hp c]
        constructor
        · intro hmem; exact List.mem_of_mem_filter hmem
        · intro hmem
          refine List.mem_filter.2 ⟨hmem, ?_⟩
          simp only [Bool.not_eq_true']
          simp only [Bool.and_eq_false_iff]
          rcases Decidable.not_and_iff_or_not.1 hcxy with h | h
          · exact Or.inl (by simpa using h)
          · exact Or.inr (by simpa using h)
    · -- a bystander: untouched on both sides
      have : claimPlayerFn myId x y goldCost unitCost tile p = p :=
        claimPlayerFn_other hpm (fun h => hprev h)
      rw [this]
      by_cases hcxy : c.x = x ∧ c.y = y
      · constructor
        · intro hmem
          have hOwns := (hInv p hp c).1 hmem
          rw [hcxy.1, hcxy.2] at hOwns
          obtain ⟨t, ht, hto⟩ := hOwns
          rw [hT] at ht
          cases ht
          exact absurd hto hprev
        · intro hOwns
          rw [hcxy.1, hcxy.2] at hOwns
          exact absurd ((ownsAt_claimGrid_self hT myId player.color p.id).1 hOwns) hpm
      · rw [ownsAt_claimGrid_other myId player.color p.id hcxy]
        exact hInv p hp c

/-! ### Frame reasoning for the construct economy -/

theorem ownsAt_updateGrid_ownerPreserving {g : List (List Tile)} {x y : Nat}
    {f : Tile → Tile} (hf : ∀ t, (f t).ownerId = t.ownerId)
    (pid : String) (i j : Nat) :
    ownsAt (updateGrid g x y f) pid i j ↔ ownsAt g pid i j := by
  unfold ownsAt
  rw [getTile_updateGrid]
  by_cases hy : j = y
  · subst hy
    by_cases hx : i = x
    · subst hx
      simp only [eq_self_iff_true, if_true]
      cases getTile g i j with
      | none => simp
      | some t => simp [hf t]
    · simp [hx]
  · simp [hy]

theorem tilesInv_frame {gs gs' : GameState}
    (hg : ∀ pid i j, ownsAt gs'.grid pid i j ↔ ownsAt gs.grid pid i j)
    (hp : ∀ p' ∈ gs'.players, ∃ p ∈ gs.players, p'.id = p.id ∧ p'.tiles = p.tiles)
    (hInv : tilesInv gs) : tilesInv gs' := by
  intro p' hp' c
  obtain ⟨p, hpmem, hid, htl⟩ := hp p' hp'
  rw [htl, hid, hg]
  exact hInv p hpmem c

theorem updatePlayer_frame {ps : List Player} {pid : String} {f : Player → Player}
    (hf : ∀ p, (f p).id = p.id ∧ (f p).tiles = p.tiles) :
    ∀ p' ∈ updatePlayer ps pid f, ∃ p ∈ ps, p'.id = p.id ∧ p'.tiles = p.tiles := by
  intro p' hp'
  obtain ⟨p, hp, rfl⟩ := List.mem_map.1 hp'
  refine ⟨p, hp, ?_, ?_⟩ <;> unfold updFn <;>
    by_cases h : p.id = pid <;> simp [h, (hf p).1, (hf p).2]

theorem buildPlayers_frame (ps : List Player) (myId : String) (goldCost : ℚ)
    (ct : ConstructType) :
    ∀ p' ∈ buildPlayers ps myId goldCost ct,
      ∃ p ∈ ps, p'.id = p.id ∧ p'.tiles = p.tiles := by
  intro p' hp'
  unfold buildPlayers at hp'
  have step1 : ∀ q' ∈ updatePlayer ps myId
      (fun p => { p with gold := p.gold - goldCost }),
      ∃ p ∈ ps, q'.id = p.id ∧ q'.tiles = p.tiles :=
    updatePlayer_frame (fun p => ⟨rfl, rfl⟩)
  by_cases h1 : ct = .GOLD
  · rw [if_pos h1] at hp'
    obtain ⟨q, hq, hid, htl⟩ := updatePlayer_frame
      (f := fun p => { p with goldRate := p.goldRate + 1 })
      (fun p => ⟨rfl, rfl⟩) p' hp'
    obtain ⟨p, hp, hid2, htl2⟩ := step1 q hq
    exact ⟨p, hp, hid.trans hid2, htl.trans htl2⟩
  · rw [if_neg h1] at hp'
    by_cases h2 : ct = .UNIT
    · rw [if_pos h2] at hp'
      obtain ⟨q, hq, hid, htl⟩ := updatePlayer_frame
        (f := fun p => { p with unitRate := p.unitRate + 1 })
        (fun p => ⟨rfl, rfl⟩) p' hp'
      obtain ⟨p, hp, hid2, htl2⟩ := step1 q hq
      exact ⟨p, hp, hid.trans hid2, htl.trans htl2⟩
    · rw [if_neg h2] at hp'
      exact step1 p' hp'

theorem demolishPlayers_frame (ps : List Player) (myId : String)
    (ct : ConstructType) :
    ∀ p' ∈ demolishPlayers ps myId ct,
      ∃ p ∈ ps, p'.id = p.id ∧ p'.tiles = p.tiles := by
  intro p' hp'
  unfold demolishPlayers at hp'
  by_cases h1 : ct = .GOLD
  · rw [if_pos h1] at hp'
    exact updatePlayer_frame
      (f := fun p => { p with goldRate := p.goldRate - 1 })
      (fun p => ⟨rfl, rfl⟩) p' hp'
  · rw [if_neg h1] at hp'
    by_cases h2 : ct = .UNIT
    · rw [if_pos h2] at hp'
      exact updatePlayer_frame
        (f := fun p => { p with unitRate := p.unitRate - 1 })
        (fun p => ⟨rfl, rfl⟩) p' hp'
    · rw [if_neg h2] at hp'
      exact ⟨p', hp', rfl, rfl⟩

theorem ownsAt_buildGrid (grid : List (List Tile)) (x y : Nat) (myId : String)
    (ct : ConstructType) (pid : String) (i j : Nat) :
    ownsAt (buildGrid grid x y myId ct) pid i j ↔ ownsAt grid pid i j := by
  unfold buildGrid
  by_cases hd : ct = .DEFENSE
  · rw [if_pos hd]
    rw [ownsAt_updateGrid_ownerPreserving
      (f := fun t => { t with defenseBonus := 10 }) (fun t => rfl)]
    exact ownsAt_updateGrid_ownerPreserving
      (f := fun t => { t with construct := some ⟨ct, some myId⟩ })
      (fun t => rfl) pid i j
  · rw [if_neg hd]
    exact ownsAt_updateGrid_ownerPreserving
      (f := fun t => { t with construct := some ⟨ct, some myId⟩ })
      (fun t => rfl) pid i j

theorem ownsAt_demolishGrid (grid : List (List Tile)) (x y : Nat)
    (ct : ConstructType) (pid : String) (i j : Nat) :
    ownsAt (demolishGrid grid x y ct) pid i j ↔ ownsAt grid pid i j := by
  unfold demolishGrid
  dsimp only
  by_cases hd : ct = .DEFENSE
  · rw [if_pos hd]
    rw [ownsAt_updateGrid_ownerPreserving
      (f := fun t => { t with construct := none }) (fun t => rfl)]
    exact ownsAt_updateGrid_ownerPreserving
      (f := fun t => { t with defenseBonus := 0 }) (fun t => rfl) pid i j
  · rw [if_neg hd]
    exact ownsAt_updateGrid_ownerPreserving
      (f := fun t => { t with construct := none }) (fun t => rfl) pid i j

/-! ### Case analyses for buildConstruct and demolishConstruct -/

theorem buildConstruct_cases {gs gs' : GameState} {myId : String} {x y : Nat}
    {ct : ConstructType} {b : Bool}
    (h : buildConstruct gs myId x y ct = some (b, gs')) :
    (b = false ∧ gs' = gs) ∨
    (b = true ∧ ∃ tile goldCost player,
      getTile gs.grid x y = some tile ∧
      tile.ownerId = some myId ∧
      tile.construct = none ∧
      constructGoldCost ct = some goldCost ∧
      findPlayer gs.players myId = some player ∧
      ¬ player.gold < goldCost ∧
      gs' = { gs with grid := buildGrid gs.grid x y myId ct,
                      players := buildPlayers gs.players myId goldCost ct }) := by
  unfold buildConstruct at h
  rcases hT : getTile gs.grid x y with _ | tile <;> rw [hT] at h
  · simp at h
  · dsimp only at h
    by_cases h1 : tile.ownerId ≠ some myId
    · rw [if_pos h1] at h
      simp at h
      exact Or.inl ⟨h.1, h.2.symm⟩
    · rw [if_neg h1] at h
      by_cases h2 : tile.construct ≠ none
      · rw [if_pos h2] at h
        simp at h
        exact Or.inl ⟨h.1, h.2.symm⟩
      · rw [if_neg h2] at h
        rcases hC : constructGoldCost ct with _ | goldCost <;> rw [hC] at h
        · simp at h
          exact Or.inl ⟨h.1, h.2.symm⟩
        · rcases hP : findPlayer gs.players myId with _ | player <;> rw [hP] at h
          · simp at h
          · dsimp only at h
            by_cases hg : player.gold < goldCost
            · rw [if_pos hg] at h
              simp at h
              exact Or.inl ⟨h.1, h.2.symm⟩
            · rw [if_neg hg] at h
              simp only [Option.some.injEq, Prod.mk.injEq] at h
              refine Or.inr ⟨h.1.symm, tile, goldCost, player, rfl, ?_, ?_, rfl,
                rfl, hg, h.2.symm⟩
              · simpa using h1
              · simpa using h2

theorem demolishConstruct_cases {gs gs' : GameState} {myId : String}
    {x y : Nat} {b : Bool}
    (h : demolishConstruct gs myId x y = some (b, gs')) :
    (b = false ∧ gs' = gs) ∨
    (b = true ∧ ∃ tile c,
      getTile gs.grid x y = some tile ∧
      tile.ownerId = some myId ∧
      tile.construct = some c ∧
      gs' = { gs with grid := demolishGrid gs.grid x y c.type,
                      players := demolishPlayers gs.players myId c.type }) := by
  unfold demolishConstruct at h
  rcases hT : getTile gs.grid x y with _ | tile <;> rw [hT] at h
  · simp at h
  · dsimp only at h
    by_cases h1 : tile.ownerId ≠ some myId
    · rw [if_pos h1] at h
      simp at h
      exact Or.inl ⟨h.1, h.2.symm⟩
    · rw [if_neg h1] at h
      rcases hC : tile.construct with _ | c <;> rw [hC] at h
      · simp at h
        exact Or.inl ⟨h.1, h.2.symm⟩
      · simp only [Option.some.injEq, Prod.mk.injEq] at h
        refine Or.inr ⟨h.1.symm, tile, c, rfl, ?_, hC, h.2.symm⟩
        simpa using h1

/-! ### Characterizing the initial game state -/

/-- The tile write performed when seeding a starting position. -/
def ownFn (p : Player) : Tile → Tile :=
  fun t => { t with ownerId := some p.id, color := some p.color }

/-- The player record produced for a seeded starting position. -/
def seededPlayer (pos : Coord) (p : Player) : Player :=
  { p with tiles := [pos],
           unitRate := if p.faction = .ALIENS then 1 else p.unitRate }

theorem getTile_mkEmptyGrid (i j : Nat) :
    getTile mkEmptyGrid i j =
      if i < GRID_SIZE ∧ j < GRID_SIZE then some (mkBlankTile i j) else none := by
  unfold getTile mkEmptyGrid
  by_cases hj : j < GRID_SIZE
  · rw [List.get?_map, List.get?_range hj]
    by_cases hi : i < GRID_SIZE
    · rw [Option.map_some', Option.some_bind, List.get?_map, List.get?_range hi]
      simp [hi, hj]
    · have : GRID_SIZE ≤ i := Nat.le_of_not_lt hi
      rw [Option.map_some', Option.some_bind, List.get?_map,
        List.get?_eq_none.2 (by simpa using this)]
      simp [hi]
  · have : GRID_SIZE ≤ j := Nat.le_of_not_lt hj
    rw [List.get?_map, List.get?_eq_none.2 (by simpa using this)]
    simp [hj]

theorem seedGrid_high (ps : List Player) (g : List (List Tile)) (n : Nat)
    (hn : 3 ≤ n) : seedGrid g (List.enumFrom n ps) = g := by
  induction ps generalizing n g with
  | nil => rfl
  | cons p t ih =>
    have hnone : startingPositions.get? n = none := by
      apply List.get?_eq_none.2
      simpa [startingPositions] using hn
    show seedGrid g ((n, p) :: List.enumFrom (n + 1) t) = g
    rw [seedGrid, hnone]
    exact ih g (n + 1) (Nat.le_succ_of_le hn)

theorem init_grid_nil (now : Nat) :
    (initializeGameState [] now).grid = mkEmptyGrid := rfl

theorem init_grid_one (p0 : Player) (now : Nat) :
    (initializeGameState [p0] now).grid =
      updateGrid mkEmptyGrid 3 3 (ownFn p0) := rfl

theorem init_grid_two (p0 p1 : Player) (now : Nat) :
    (initializeGameState [p0, p1] now).grid =
      updateGrid (updateGrid mkEmptyGrid 3 3 (ownFn p0)) 20 20 (ownFn p1) := rfl

theorem init_grid_three (p0 p1 p2 : Player) (rest : List Player) (now : Nat) :
    (initializeGameState (p0 :: p1 :: p2 :: rest) now).grid =
      updateGrid (updateGrid (updateGrid mkEmptyGrid 3 3 (ownFn p0)) 20 20
        (ownFn p1)) 3 20 (ownFn p2) := by
  show seedGrid mkEmptyGrid ((p0 :: p1 :: p2 :: rest).enum) = _
  have henum : (p0 :: p1 :: p2 :: rest).enum =
      (0, p0) :: (1, p1) :: (2, p2) :: List.enumFrom 3 rest := rfl
  rw [henum]
  rw [seedGrid]
  show seedGrid (updateGrid mkEmptyGrid 3 3 (ownFn p0))
      ((1, p1) :: (2, p2) :: List.enumFrom 3 rest) = _
  rw [seedGrid]
  show seedGrid (updateGrid (updateGrid mkEmptyGrid 3 3 (ownFn p0)) 20 20
      (ownFn p1)) ((2, p2) :: List.enumFrom 3 rest) = _
  rw [seedGrid]
  exact seedGrid_high rest _ 3 le_rfl

theorem init_players_nil (now : Nat) :
    (initializeGameState [] now).players = [] := rfl

theorem init_players_one (p0 : Player) (now : Nat) :
    (initializeGameState [p0] now).players = [seededPlayer ⟨3, 3⟩ p0] := rfl

theorem init_players_two (p0 p1 : Player) (now : Nat) :
    (initializeGameState [p0, p1] now).players =
      [seededPlayer ⟨3, 3⟩ p0, seededPlayer ⟨20, 20⟩ p1] := rfl

theorem init_players_three (p0 p1 p2 : Player) (now : Nat) :
    (initializeGameState [p0, p1, p2] now).players =
      [seededPlayer ⟨3, 3⟩ p0, seededPlayer ⟨20, 20⟩ p1,
       seededPlayer ⟨3, 20⟩ p2] := rfl

theorem ownsAt_mkEmptyGrid (pid : String) (i j : Nat) :
    ¬ ownsAt mkEmptyGrid pid i j := by
  rintro ⟨t, ht, hown⟩
  rw [getTile_mkEmptyGrid] at ht
  by_cases h : i < GRID_SIZE ∧ j < GRID_SIZE
  · rw [if_pos h] at ht
    cases ht
    simp [mkBlankTile] at hown
  · rw [if_neg h] at ht
    cases ht

theorem ownsAt_seed1 (p0 : Player) (pid : String) (i j : Nat) :
    ownsAt (updateGrid mkEmptyGrid 3 3 (ownFn p0)) pid i j ↔
      (i = 3 ∧ j = 3 ∧ pid = p0.id) := by
  constructor
  · rintro ⟨t, ht, hown⟩
    rw [getTile_updateGrid] at ht
    by_cases hj : j = 3
    · subst hj
      by_cases hi : i = 3
      · subst hi
        simp only [eq_self_iff_true, if_true] at ht
        rw [getTile_mkEmptyGrid,
          if_pos (by decide : (3:Nat) < GRID_SIZE ∧ (3:Nat) < GRID_SIZE),
          Option.map_some'] at ht
        have ht2 := Option.some.inj ht
        subst ht2
        simp [ownFn] at hown
        exact ⟨rfl, rfl, hown.symm⟩
      · rw [if_pos rfl, if_neg hi] at ht
        exact absurd ⟨t, ht, hown⟩ (ownsAt_mkEmptyGrid pid i 3)
    · rw [if_neg hj] at ht
      exact absurd ⟨t, ht, hown⟩ (ownsAt_mkEmptyGrid pid i j)
  · rintro ⟨hi, hj, hpid⟩
    subst hi; subst hj; subst hpid
    refine ⟨ownFn p0 (mkBlankTile 3 3), ?_, by simp [ownFn]⟩
    rw [getTile_updateGrid]
    simp only [eq_self_iff_true, if_true]
    rw [getTile_mkEmptyGrid]
    simp [show (3 < GRID_SIZE ∧ 3 < GRID_SIZE) from by decide]

theorem getTile_updateGrid_comm_other {g : List (List Tile)} {x y i j : Nat}
    {f : Tile → Tile} (h : ¬ (x = i ∧ y = j)) :
    getTile (updateGrid g x y f) i j = getTile g i j := by
  apply getTile_updateGrid_other
  intro hc
  exact h ⟨hc.1.symm, hc.2.symm⟩

theorem ownsAt_seed2 (p0 p1 : Player) (pid : String) (i j : Nat) :
    ownsAt (updateGrid (updateGrid mkEmptyGrid 3 3 (ownFn p0)) 20 20
        (ownFn p1)) pid i j ↔
      ((i = 3 ∧ j = 3 ∧ pid = p0.id) ∨ (i = 20 ∧ j = 20 ∧ pid = p1.id)) := by
  by_cases h20 : i = 20 ∧ j = 20
  · obtain ⟨hi, hj⟩ := h20
    subst hi; subst hj
    unfold ownsAt
    rw [getTile_updateGrid_self]
    rw [getTile_updateGrid_comm_other (by decide), getTile_mkEmptyGrid,
      if_pos (by decide : (20:Nat) < GRID_SIZE ∧ (20:Nat) < GRID_SIZE),
      Option.map_some']
    constructor
    · rintro ⟨t, ht, hown⟩
      have ht2 := Option.some.inj ht
      subst ht2
      simp [ownFn] at hown
      exact Or.inr ⟨rfl, rfl, hown.symm⟩
    · rintro (⟨h3, _, _⟩ | ⟨_, _, hpid⟩)
      · exact absurd h3 (by decide)
      · exact ⟨_, rfl, by simp [ownFn, hpid]⟩
  · unfold ownsAt
    rw [getTile_updateGrid_other _ _ _ _ _ _
      (fun hc => h20 ⟨hc.1, hc.2⟩)]
    rw [show (∃ t, getTile (updateGrid mkEmptyGrid 3 3 (ownFn p0)) i j = some t ∧
        t.ownerId = some pid) = ownsAt (updateGrid mkEmptyGrid 3 3 (ownFn p0)) pid i j
      from rfl]
    rw [ownsAt_seed1]
    constructor
    · exact fun h => Or.inl h
    · rintro (h | ⟨hi, hj, _⟩)
      · exact h
      · exact absurd ⟨hi, hj⟩ h20

theorem ownsAt_seed3 (p0 p1 p2 : Player) (pid : String) (i j : Nat) :
    ownsAt (updateGrid (updateGrid (updateGrid mkEmptyGrid 3 3 (ownFn p0))
        20 20 (ownFn p1)) 3 20 (ownFn p2)) pid i j ↔
      ((i = 3 ∧ j = 3 ∧ pid = p0.id) ∨ (i = 20 ∧ j = 20 ∧ pid = p1.id) ∨
       (i = 3 ∧ j = 20 ∧ pid = p2.id)) := by
  by_cases h320 : i = 3 ∧ j = 20
  · obtain ⟨hi, hj⟩ := h320
    subst hi; subst hj
    unfold ownsAt
    rw [getTile_updateGrid_self]
    rw [getTile_updateGrid_comm_other (by decide),
      getTile_updateGrid_comm_other (by decide), getTile_mkEmptyGrid,
      if_pos (by decide : (3:Nat) < GRID_SIZE ∧ (20:Nat) < GRID_SIZE),
      Option.map_some']
    constructor
    · rintro ⟨t, ht, hown⟩
      have ht2 := Option.some.inj ht
      subst ht2
      simp [ownFn] at hown
      exact Or.inr (Or.inr ⟨rfl, rfl, hown.symm⟩)
    · rintro (⟨_, h3, _⟩ | ⟨h3, _, _⟩ | ⟨_, _, hpid⟩)
      · exact absurd h3 (by decide)
      · exact absurd h3 (by decide)
      · exact ⟨_, rfl, by simp [ownFn, hpid]⟩
  · unfold ownsAt
    rw [getTile_updateGrid_other _ _ _ _ _ _ (fun hc => h320 ⟨hc.1, hc.2⟩)]
    rw [show (∃ t, getTile (updateGrid (updateGrid mkEmptyGrid 3 3 (ownFn p0))
        20 20 (ownFn p1)) i j = some t ∧ t.ownerId = some pid) =
        ownsAt (updateGrid (updateGrid mkEmptyGrid 3 3 (ownFn p0)) 20 20
          (ownFn p1)) pid i j from rfl]
    rw [ownsAt_seed2]
    constructor
    · rintro (h | h)
      · exact Or.inl h
      · exact Or.inr (Or.inl h)
    · rintro (h | h | ⟨hi, hj, _⟩)
      · exact Or.inl h
      · exact Or.inr h
      · exact absurd ⟨hi, hj⟩ h320

/-- Game-start initialization establishes the tiles invariant for a roster
of at most MAX_PLAYERS players with distinct ids. -/
theorem init_tilesInv (ps : List Player) (now : Nat)
    (hN : idsNodup ps) (hLen : ps.length ≤ MAX_PLAYERS) :
    tilesInv (initializeGameState ps now) := by
  intro p' hp' c
  rcases ps with _ | ⟨p0, _ | ⟨p1, _ | ⟨p2, rest⟩⟩⟩
  · rw [init_players_nil] at hp'
    exact absurd hp' (List.not_mem_nil p')
  · rw [init_players_one] at hp'
    have hrw := init_grid_one p0 now
    rw [hrw]
    simp only [List.mem_singleton] at hp'
    subst hp'
    rw [ownsAt_seed1]
    show c ∈ [(⟨3, 3⟩ : Coord)] ↔ _
    constructor
    · intro hc
      simp only [List.mem_singleton] at hc
      obtain ⟨hx, hy⟩ := Coord.eq_mk_iff.1 hc
      exact ⟨hx, hy, rfl⟩
    · rintro ⟨hx, hy, _⟩
      simp [Coord.eq_mk_iff, hx, hy]
  · rw [init_players_two] at hp'
    rw [init_grid_two]
    have hid : p0.id ≠ p1.id := by
      simp [idsNodup] at hN
      exact hN
    simp only [List.mem_cons, List.mem_singleton, List.not_mem_nil, or_false]
      at hp'
    rcases hp' with hp' | hp' <;> subst hp' <;> rw [ownsAt_seed2] <;>
      show c ∈ [_] ↔ _
    · constructor
      · intro hc
        simp only [List.mem_singleton] at hc
        obtain ⟨hx, hy⟩ := Coord.eq_mk_iff.1 hc
        exact Or.inl ⟨hx, hy, rfl⟩
      · rintro (⟨hx, hy, _⟩ | ⟨hx, hy, hpid⟩)
        · simp [Coord.eq_mk_iff, hx, hy]
        · exact absurd hpid hid
    · constructor
      · intro hc
        simp only [List.mem_singleton] at hc
        obtain ⟨hx, hy⟩ := Coord.eq_mk_iff.1 hc
        exact Or.inr ⟨hx, hy, rfl⟩
      · rintro (⟨hx, hy, hpid⟩ | ⟨hx, hy, _⟩)
        · exact absurd hpid.symm hid
        · simp [Coord.eq_mk_iff, hx, hy]
  · have hrest : rest = [] := by
      simp only [List.length_cons, MAX_PLAYERS] at hLen
      exact List.length_eq_zero.1 (by omega)
    subst hrest
    rw [init_players_three] at hp'
    rw [init_grid_three]
    have hid01 : p0.id ≠ p1.id := by
      simp [idsNodup] at hN; tauto
    have hid02 : p0.id ≠ p2.id := by
      simp [idsNodup] at hN; tauto
    have hid12 : p1.id ≠ p2.id := by
      simp [idsNodup] at hN; tauto
    simp only [List.mem_cons, List.mem_singleton, List.not_mem_nil, or_false]
      at hp'
    rcases hp' with hp' | hp' | hp' <;> subst hp' <;> rw [ownsAt_seed3] <;>
      show c ∈ [_] ↔ _
    · constructor
      · intro hc
        simp only [List.mem_singleton] at hc
        obtain ⟨hx, hy⟩ := Coord.eq_mk_iff.1 hc
        exact Or.inl ⟨hx, hy, rfl⟩
      · rintro (⟨hx, hy, _⟩ | ⟨hx, hy, hpid⟩ | ⟨hx, hy, hpid⟩)
        · simp [Coord.eq_mk_iff, hx, hy]
        · exact absurd hpid hid01
        · exact absurd hpid hid02
    · constructor
      · intro hc
        simp only [List.mem_singleton] at hc
        obtain ⟨hx, hy⟩ := Coord.eq_mk_iff.1 hc
        exact Or.inr (Or.inl ⟨hx, hy, rfl⟩)
      · rintro (⟨hx, hy, hpid⟩ | ⟨hx, hy, _⟩ | ⟨hx, hy, hpid⟩)
        · exact absurd hpid.symm hid01
        · simp [Coord.eq_mk_iff, hx, hy]
        · exact absurd hpid hid12
    · constructor
      · intro hc
        simp only [List.mem_singleton] at hc
        obtain ⟨hx, hy⟩ := Coord.eq_mk_iff.1 hc
        exact Or.inr (Or.inr ⟨hx, hy, rfl⟩)
      · rintro (⟨hx, hy, hpid⟩ | ⟨hx, hy, hpid⟩ | ⟨hx, hy, _⟩)
        · exact absurd hpid.symm hid02
        · exact absurd hpid.symm hid12
        · simp [Coord.eq_mk_iff, hx, hy]

/-! ### Resource ticker lemmas -/

theorem tickPlayer_id (p : Player) : (tickPlayer p).id = p.id := by
  unfold tickPlayer
  split <;> rfl

theorem updateResources_accrual (gs : GameState) (now e : Nat)
    (hE : gs.gameEndTime = some e) (hNow : now < e) :
    updateResources gs now = { gs with players := gs.players.map tickPlayer } := by
  unfold updateResources
  rw [hE]
  dsimp only
  rw [if_neg (Nat.not_le.2 hNow)]

theorem updateResources_gameEnd (gs : GameState) (now e : Nat)
    (hE : gs.gameEndTime = some e) (hNow : e ≤ now) :
    updateResources gs now =
      { gs with gameOver := true, winner := scanWinner gs.players 0 none } := by
  unfold updateResources
  rw [hE]
  dsimp only
  rw [if_pos hNow]

theorem iterate_tick_findPlayer (gs : GameState) (now e : Nat)
    (pid : String) (p : Player) (n : Nat)
    (hE : gs.gameEndTime = some e) (hNow : now < e)
    (hP : findPlayer gs.players pid = some p) (hT : p.tiles ≠ []) :
    findPlayer (((fun s => updateResources s now)^[n] gs)).players pid =
      some { p with gold := p.gold + n * (p.goldRate / 10),
                    units := p.units + n * (p.unitRate / 10) } ∧
    (((fun s => updateResources s now)^[n] gs)).gameEndTime = some e := by
  induction n with
  | zero =>
    simp only [Function.iterate_zero, id_eq, Nat.cast_zero, zero_mul, add_zero]
    exact ⟨hP, hE⟩
  | succ n ih =>
    obtain ⟨ih1, ih2⟩ := ih
    rw [Function.iterate_succ_apply']
    rw [updateResources_accrual _ now e ih2 hNow]
    constructor
    · show findPlayer (List.map tickPlayer _) pid = _
      rw [findPlayer_map tickPlayer tickPlayer_id, ih1]
      rw [Option.map_some']
      congr 1
      unfold tickPlayer
      rw [if_neg (by simpa using hT)]
      simp only [Player.mk.injEq, true_and, and_true]
      constructor <;> push_cast <;> ring
    · exact ih2

theorem scanWinner_const (l : List Player) (m : Nat) (w : Option String)
    (h : ∀ q ∈ l, q.tiles.length ≤ m) : scanWinner l m w = w := by
  induction l generalizing m w with
  | nil => rfl
  | cons q t ih =>
    rw [scanWinner]
    rw [if_neg (Nat.not_lt.2 (h q (List.mem_cons_self q t)))]
    exact ih m w (fun r hr => h r (List.mem_cons_of_mem q hr))

theorem scanWinner_first_max (l1 : List Player) (p : Player) (l2 : List Player)
    (m : Nat) (w : Option String)
    (hm : m < p.tiles.length)
    (h1 : ∀ q ∈ l1, q.tiles.length < p.tiles.length)
    (h2 : ∀ q ∈ l2, q.tiles.length ≤ p.tiles.length) :
    scanWinner (l1 ++ p :: l2) m w = some p.id := by
  induction l1 generalizing m w with
  | nil =>
    rw [List.nil_append, scanWinner, if_pos hm]
    exact scanWinner_const l2 p.tiles.length (some p.id) h2
  | cons q t ih =>
    rw [List.cons_append, scanWinner]
    by_cases hq : q.tiles.length > m
    · rw [if_pos hq]
      exact ih q.tiles.length (some q.id)
        (h1 q (List.mem_cons_self q t))
        (fun r hr => h1 r (List.mem_cons_of_mem q hr))
    · rw [if_neg hq]
      exact ih m w hm (fun r hr => h1 r (List.mem_cons_of_mem q hr))

/-! ### Success shapes and field computations for the construct economy -/

theorem buildConstruct_success_shape {gs : GameState} {myId : String}
    {x y : Nat} {ct : ConstructType} {tile : Tile} {player : Player}
    {goldCost : ℚ}
    (hT : getTile gs.grid x y = some tile)
    (hOwn : tile.ownerId = some myId)
    (hCon : tile.construct = none)
    (hC : constructGoldCost ct = some goldCost)
    (hP : findPlayer gs.players myId = some player)
    (hg : ¬ player.gold < goldCost) :
    buildConstruct gs myId x y ct = some (true,
      { gs with grid := buildGrid gs.grid x y myId ct,
                players := buildPlayers gs.players myId goldCost ct }) := by
  simp [buildConstruct, hT, hOwn, hCon, hC, hP, hg]

theorem demolishConstruct_success_shape {gs : GameState} {myId : String}
    {x y : Nat} {tile : Tile} {c : Construct}
    (hT : getTile gs.grid x y = some tile)
    (hOwn : tile.ownerId = some myId)
    (hCon : tile.construct = some c) :
    demolishConstruct gs myId x y = some (true,
      { gs with grid := demolishGrid gs.grid x y c.type,
                players := demolishPlayers gs.players myId c.type }) := by
  simp [demolishConstruct, hT, hOwn, hCon]

theorem getTile_buildGrid_self {g : List (List Tile)} {x y : Nat} {tile : Tile}
    (hT : getTile g x y = some tile) (myId : String) (ct : ConstructType) :
    getTile (buildGrid g x y myId ct) x y =
      some (if ct = .DEFENSE then
        { tile with construct := some ⟨ct, some myId⟩, defenseBonus := 10 }
      else { tile with construct := some ⟨ct, some myId⟩ }) := by
  unfold buildGrid
  dsimp only
  by_cases hd : ct = .DEFENSE
  · rw [if_pos hd, getTile_updateGrid_self, getTile_updateGrid_self, hT,
      if_pos hd]
    rfl
  · rw [if_neg hd, getTile_updateGrid_self, hT, if_neg hd]
    rfl

theorem getTile_demolishGrid_self {g : List (List Tile)} {x y : Nat}
    {t1 : Tile} (hT : getTile g x y = some t1) (ct : ConstructType) :
    getTile (demolishGrid g x y ct) x y =
      some (if ct = .DEFENSE then
        { t1 with construct := none, defenseBonus := 0 }
      else { t1 with construct := none }) := by
  unfold demolishGrid
  dsimp only
  by_cases hd : ct = .DEFENSE
  · rw [if_pos hd, getTile_updateGrid_self, getTile_updateGrid_self, hT,
      if_pos hd]
    rfl
  · rw [if_neg hd, getTile_updateGrid_self, hT, if_neg hd]
    rfl

theorem findPlayer_buildPlayers_self {ps : List Player} {myId : String}
    {goldCost : ℚ} {player : Player} (ct : ConstructType)
    (hP : findPlayer ps myId = some player) :
    findPlayer (buildPlayers ps myId goldCost ct) myId =
      some (if ct = .GOLD then
        { player with gold := player.gold - goldCost,
                      goldRate := player.goldRate + 1 }
      else if ct = .UNIT then
        { player with gold := player.gold - goldCost,
                      unitRate := player.unitRate + 1 }
      else { player with gold := player.gold - goldCost }) := by
  unfold buildPlayers
  dsimp only
  by_cases h1 : ct = .GOLD
  · rw [if_pos h1,
      findPlayer_updatePlayer_self
        (f := fun p => { p with goldRate := p.goldRate + 1 }) (fun p => rfl),
      findPlayer_updatePlayer_self
        (f := fun p => { p with gold := p.gold - goldCost }) (fun p => rfl),
      hP, Option.map_some', Option.map_some', if_pos h1]
  · rw [if_neg h1]
    by_cases h2 : ct = .UNIT
    · rw [if_pos h2,
        findPlayer_updatePlayer_self
          (f := fun p => { p with unitRate := p.unitRate + 1 }) (fun p => rfl),
        findPlayer_updatePlayer_self
          (f := fun p => { p with gold := p.gold - goldCost }) (fun p => rfl),
        hP, Option.map_some', Option.map_some', if_neg h1, if_pos h2]
    · rw [if_neg h2,
        findPlayer_updatePlayer_self
          (f := fun p => { p with gold := p.gold - goldCost }) (fun p => rfl),
        hP, Option.map_some', if_neg h1, if_neg h2]

theorem findPlayer_demolishPlayers_self {ps : List Player} {myId : String}
    {player : Player} (ct : ConstructType)
    (hP : findPlayer ps myId = some player) :
    findPlayer (demolishPlayers ps myId ct) myId =
      some (if ct = .GOLD then
        { player with goldRate := player.goldRate - 1 }
      else if ct = .UNIT then
        { player with unitRate := player.unitRate - 1 }
      else player) := by
  unfold demolishPlayers
  by_cases h1 : ct = .GOLD
  · rw [if_pos h1,
      findPlayer_updatePlayer_self
        (f := fun p => { p with goldRate := p.goldRate - 1 }) (fun p => rfl),
      hP, Option.map_some', if_pos h1]
  · rw [if_neg h1]
    by_cases h2 : ct = .UNIT
    · rw [if_pos h2,
        findPlayer_updatePlayer_self
          (f := fun p => { p with unitRate := p.unitRate - 1 }) (fun p => rfl),
        hP, Option.map_some', if_neg h1, if_pos h2]
    · rw [if_neg h2, hP, if_neg h1, if_neg h2]

/-! ### The elimination check inside claimEffect -/

theorem findPlayer_claimPlayers {ps : List Player} {myId : String}
    {x y : Nat} {goldCost unitCost : ℚ} {tile : Tile} (q : String) :
    findPlayer (claimPlayers ps myId x y goldCost unitCost tile) q =
      (findPlayer ps q).map (claimPlayerFn myId x y goldCost unitCost tile) := by
  rw [claimPlayers_eq_map]
  exact findPlayer_map _ (claimPlayerFn_id myId x y goldCost unitCost tile)

theorem claimEffect_misc (gs : GameState) (myId : String) (x y : Nat)
    (goldCost unitCost : ℚ) (tile : Tile) (player : Player) :
    (claimEffect gs myId x y goldCost unitCost tile player).gameStarted =
        gs.gameStarted ∧
    (claimEffect gs myId x y goldCost unitCost tile player).currentTurn =
        gs.currentTurn ∧
    (claimEffect gs myId x y goldCost unitCost tile player).gameEndTime =
        gs.gameEndTime := by
  unfold claimEffect
  dsimp only
  split <;> exact ⟨rfl, rfl, rfl⟩

theorem claimEffect_gameOver_winner (gs : GameState) (myId : String)
    (x y : Nat) (goldCost unitCost : ℚ) (tile : Tile) (player : Player) :
    ((claimEffect gs myId x y goldCost unitCost tile player).gameOver =
        gs.gameOver ∧
     (claimEffect gs myId x y goldCost unitCost tile player).winner =
        gs.winner) ∨
    ((claimEffect gs myId x y goldCost unitCost tile player).gameOver = true ∧
     ∃ w ∈ (claimEffect gs myId x y goldCost unitCost tile player).players,
       (claimEffect gs myId x y goldCost unitCost tile player).winner =
         some w.id) := by
  unfold claimEffect
  dsimp only
  rcases hfil : (claimPlayers gs.players myId x y goldCost unitCost tile).filter
      (fun p => p.tiles.length > 0) with _ | ⟨a, _ | ⟨b, t⟩⟩
  · rw [hfil]
    exact Or.inl ⟨rfl, rfl⟩
  · rw [hfil]
    refine Or.inr ⟨rfl, a, ?_, rfl⟩
    exact List.mem_of_mem_filter (hfil ▸ List.mem_singleton_self a)
  · rw [hfil]
    exact Or.inl ⟨rfl, rfl⟩

theorem claimEffect_single {gs : GameState} {myId : String} {x y : Nat}
    {goldCost unitCost : ℚ} {tile : Tile} {player : Player} {w : Player}
    (hfil : (claimPlayers gs.players myId x y goldCost unitCost tile).filter
      (fun p => p.tiles.length > 0) = [w]) :
    (claimEffect gs myId x y goldCost unitCost tile player).gameOver = true ∧
    (claimEffect gs myId x y goldCost unitCost tile player).winner =
      some w.id := by
  unfold claimEffect
  dsimp only
  rw [hfil]
  exact ⟨rfl, rfl⟩

theorem claimEffect_not_single {gs : GameState} {myId : String} {x y : Nat}
    {goldCost unitCost : ℚ} {tile : Tile} {player : Player}
    (hfil : ∀ w : Player,
      (claimPlayers gs.players myId x y goldCost unitCost tile).filter
        (fun p => p.tiles.length > 0) ≠ [w]) :
    (claimEffect gs myId x y goldCost unitCost tile player).gameOver =
      gs.gameOver ∧
    (claimEffect gs myId x y goldCost unitCost tile player).winner =
      gs.winner := by
  unfold claimEffect
  dsimp only
  rcases hs : (claimPlayers gs.players myId x y goldCost unitCost tile).filter
      (fun p => p.tiles.length > 0) with _ | ⟨a, _ | ⟨b, t⟩⟩
  · rw [hs]; exact ⟨rfl, rfl⟩
  · exact absurd hs (hfil a)
  · rw [hs]; exact ⟨rfl, rfl⟩

theorem claimPlayers_ids (ps : List Player) (myId : String) (x y : Nat)
    (goldCost unitCost : ℚ) (tile : Tile) :
    (claimPlayers ps myId x y goldCost unitCost tile).map Player.id =
      ps.map Player.id := by
  rw [claimPlayers_eq_map, List.map_map]
  exact List.map_congr_left
    (fun p _ => claimPlayerFn_id myId x y goldCost unitCost tile p)

theorem filter_eq_singleton_of_unique {α : Type} [DecidableEq α] {l : List α}
    {w : α} {g : α → Bool} (hN : l.Nodup) (hw : w ∈ l) (hpw : g w = true)
    (huniq : ∀ q ∈ l, g q = true → q = w) : l.filter g = [w] := by
  induction l with
  | nil => cases hw
  | cons a t ih =>
    rcases List.mem_cons.1 hw with rfl | hwt
    · rw [List.filter_cons_of_pos hpw]
      have ht : t.filter g = [] := by
        rw [List.filter_eq_nil]
        intro q hq hpq
        have : q = w := huniq q (List.mem_cons_of_mem w hq) hpq
        subst this
        exact (List.nodup_cons.1 hN).1 hq
      rw [ht]
    · have haw : a ≠ w := by
        intro h; subst h
        exact (List.nodup_cons.1 hN).1 hwt
      have hpa : g a = false := by
        by_contra hpa
        simp only [Bool.not_eq_false] at hpa
        exact haw (huniq a (List.mem_cons_self a t) hpa)
      rw [List.filter_cons_of_neg (by simp [hpa])]
      exact ih (List.nodup_cons.1 hN).2 hwt
        (fun q hq hpq => huniq q (List.mem_cons_of_mem a hq) hpq)

theorem filter_ne_singleton {α : Type} {l : List α} {w1 w2 : α}
    {g : α → Bool} (h1 : w1 ∈ l) (h2 : w2 ∈ l) (hne : w1 ≠ w2)
    (hp1 : g w1 = true) (hp2 : g w2 = true) :
    ∀ v : α, l.filter g ≠ [v] := by
  intro v hv
  have m1 : w1 ∈ l.filter g := List.mem_filter.2 ⟨h1, hp1⟩
  have m2 : w2 ∈ l.filter g := List.mem_filter.2 ⟨h2, hp2⟩
  rw [hv] at m1 m2
  simp only [List.mem_singleton] at m1 m2
  exact hne (m1.trans m2.symm)

/-! ### Claim theorems -/

/-- Claim C1: for every player at every reachable snapshot, the player's
tiles list read as a set equals the set of coordinates owned by that player
on the grid; startGame initialization establishes this invariant (for a
roster of at most three players with distinct ids) and claimTile,
buildConstruct and demolishConstruct all preserve it. -/
theorem spec_C1 :
    (∀ ps now, idsNodup ps → ps.length ≤ MAX_PLAYERS →
      tilesInv (initializeGameState ps now)) ∧
    (∀ gs myId x y goldCost unitCost b gs',
      claimTile gs myId x y goldCost unitCost = some (b, gs') →
      tilesInv gs → tilesInv gs') ∧
    (∀ gs myId x y ct b gs',
      buildConstruct gs myId x y ct = some (b, gs') →
      tilesInv gs → tilesInv gs') ∧
    (∀ gs myId x y b gs',
      demolishConstruct gs myId x y = some (b, gs') →
      tilesInv gs → tilesInv gs') := by
  refine ⟨init_tilesInv, ?_, ?_, ?_⟩
  · intro gs myId x y goldCost unitCost b gs' h hInv
    rcases claimTile_cases h with ⟨_, rfl⟩ |
      ⟨_, tile, player, hT, _, _, _, _, rfl⟩
    · exact hInv
    · exact tilesInv_claimEffect hT hInv
  · intro gs myId x y ct b gs' h hInv
    rcases buildConstruct_cases h with ⟨_, rfl⟩ |
      ⟨_, tile, goldCost, player, hT, _, _, _, _, _, rfl⟩
    · exact hInv
    · refine tilesInv_frame ?_ ?_ hInv
      · intro pid i j
        exact ownsAt_buildGrid gs.grid x y myId ct pid i j
      · intro p' hp'
        exact buildPlayers_frame gs.players myId goldCost ct p' hp'
  · intro gs myId x y b gs' h hInv
    rcases demolishConstruct_cases h with ⟨_, rfl⟩ |
      ⟨_, tile, c, hT, _, _, rfl⟩
    · exact hInv
    · refine tilesInv_frame ?_ ?_ hInv
      · intro pid i j
        exact ownsAt_demolishGrid gs.grid x y c.type pid i j
      · intro p' hp'
        exact demolishPlayers_frame gs.players myId c.type p' hp'

/-- A one-player roster used by several concrete scenarios. -/
def wC1P : Player :=
  { id := "A", name := "alice", isReady := true, color := "c1",
    faction := Faction.HUMANS, gold := 10, units := 0, goldRate := 1,
    unitRate := 0, tiles := [] }

/-- The initial snapshot of that one-player game. -/
def wC1Gs0 : GameState := initializeGameState [wC1P] 0

/-- The snapshot after the player claims the tile east of its start. -/
def wC1Gs1 : GameState :=
  match claimTile wC1Gs0 "A" 4 3 10 0 with
  | some (_, s) => s
  | none => wC1Gs0

theorem spec_C1_witness : tilesInv wC1Gs1 := by
  have h0 : tilesInv wC1Gs0 :=
    spec_C1.1 [wC1P] 0
      (show (List.map Player.id [wC1P]).Nodup by decide)
      (by decide)
  exact spec_C1.2.1 wC1Gs0 "A" 4 3 10 0 true wC1Gs1 rfl h0

/-- Claim C2: when the target tile exists but is not 4-directionally
adjacent to any tile owned by the caller, claimTile returns false and the
returned snapshot is the unchanged input, regardless of gold and units. -/
theorem spec_C2 (gs : GameState) (myId : String) (x y : Nat)
    (goldCost unitCost : ℚ) (tile : Tile) (player : Player)
    (hT : getTile gs.grid x y = some tile)
    (hP : findPlayer gs.players myId = some player)
    (hInv : tilesInv gs)
    (hNadj : ∀ i j, ownsAt gs.grid myId i j →
      isAdjacentCoord ⟨i, j⟩ x y = false) :
    claimTile gs myId x y goldCost unitCost = some (false, gs) := by
  apply claimTile_reject_shape hT hP
  rw [hasAdjacentTile, List.any_eq_false]
  intro c hc
  have hmem := (hInv player (findPlayer_mem hP) c).1 hc
  rw [findPlayer_some_id hP] at hmem
  simp only [Bool.not_eq_true]
  exact hNadj c.x c.y hmem

theorem spec_C2_witness :
    claimTile wC1Gs0 "A" 10 10 99 99 = some (false, wC1Gs0) := by
  apply spec_C2 wC1Gs0 "A" 10 10 99 99 (mkBlankTile 10 10)
    (seededPlayer ⟨3, 3⟩ wC1P) rfl rfl
  · exact init_tilesInv [wC1P] 0
      (show (List.map Player.id [wC1P]).Nodup by decide) (by decide)
  · intro i j hOwn
    rw [show wC1Gs0.grid = updateGrid mkEmptyGrid 3 3 (ownFn wC1P)
      from init_grid_one wC1P 0] at hOwn
    obtain ⟨hi, hj, _⟩ := (ownsAt_seed1 wC1P "A" i j).1 hOwn
    subst hi; subst hj
    decide

/-- Claim C3: when the caller has enough gold, the target is adjacent to an
owned tile, and enough units are held for a contested target, claimTile
succeeds: gold drops by goldCost, the tile's owner and color become the
caller's, the coordinate is appended to the caller's tiles, and for a
contested target units drop by unitCost and the coordinate is removed from
the previous owner's tiles. -/
theorem spec_C3 (gs : GameState) (myId : String) (x y : Nat)
    (goldCost unitCost : ℚ) (tile : Tile) (player : Player)
    (hT : getTile gs.grid x y = some tile)
    (hP : findPlayer gs.players myId = some player)
    (hInv : tilesInv gs)
    (hg : goldCost ≤ player.gold)
    (hAdj : ∃ i j, ownsAt gs.grid myId i j ∧ isAdjacentCoord ⟨i, j⟩ x y = true)
    (hu : ∀ q, tile.ownerId = some q → q ≠ myId → unitCost ≤ player.units) :
    ∃ gs', claimTile gs myId x y goldCost unitCost = some (true, gs') ∧
      (∃ p', findPlayer gs'.players myId = some p' ∧
        p'.gold = player.gold - goldCost ∧
        p'.tiles = player.tiles ++ [⟨x, y⟩] ∧
        (isContested tile myId = true → p'.units = player.units - unitCost) ∧
        (isContested tile myId = false → p'.units = player.units)) ∧
      (∃ t', getTile gs'.grid x y = some t' ∧ t'.ownerId = some myId ∧
        t'.color = some player.color) ∧
      (∀ q pq, tile.ownerId = some q → q ≠ myId →
        findPlayer gs.players q = some pq →
        ∃ pq', findPlayer gs'.players q = some pq' ∧
          (⟨x, y⟩ : Coord) ∉ pq'.tiles ∧
          ∀ c : Coord, c ≠ ⟨x, y⟩ → (c ∈ pq'.tiles ↔ c ∈ pq.tiles)) := by
  have hpid : player.id = myId := findPlayer_some_id hP
  have hadj : hasAdjacentTile player x y = true := by
    obtain ⟨i, j, hOwn, hac⟩ := hAdj
    rw [hasAdjacentTile, List.any_eq_true]
    refine ⟨⟨i, j⟩, ?_, hac⟩
    rw [hInv player (findPlayer_mem hP) ⟨i, j⟩, hpid]
    exact hOwn
  have hg' : ¬ player.gold < goldCost := not_lt.2 hg
  have hu' : ¬ (isContested tile myId = true ∧ player.units < unitCost) := by
    rintro ⟨hcont, hlt⟩
    obtain ⟨q, hq, hqne⟩ := (isContested_true_iff tile myId).1 hcont
    exact absurd hlt (not_lt.2 (hu q hq hqne))
  refine ⟨claimEffect gs myId x y goldCost unitCost tile player,
    claimTile_success_shape hT hP hg' hu' hadj, ?_, ?_, ?_⟩
  · rw [claimEffect_players, findPlayer_claimPlayers, hP, Option.map_some']
    by_cases hc : isContested tile myId = true
    · obtain ⟨prev, hOwnP, hprev⟩ := (isContested_true_iff tile myId).1 hc
      rw [claimPlayerFn_actor_contested hOwnP hprev hpid]
      refine ⟨_, rfl, rfl, rfl, fun _ => rfl, ?_⟩
      intro hf
      rw [hc] at hf
      cases hf
    · simp only [Bool.not_eq_true] at hc
      rw [claimPlayerFn_actor_uncontested hc hpid]
      refine ⟨_, rfl, rfl, rfl, ?_, fun _ => rfl⟩
      intro ht
      rw [hc] at ht
      cases ht
  · rw [claimEffect_grid]
    unfold claimGrid
    rw [getTile_updateGrid_self, hT, Option.map_some']
    exact ⟨_, rfl, rfl, rfl⟩
  · intro q pq hq hqne hfq
    rw [claimEffect_players, findPlayer_claimPlayers, hfq, Option.map_some']
    rw [claimPlayerFn_prev hq hqne (findPlayer_some_id hfq)]
    refine ⟨_, rfl, ?_, ?_⟩
    · intro hmem
      have := List.of_mem_filter hmem
      simp at this
    · intro c hc
      constructor
      · intro hmem
        exact List.mem_of_mem_filter hmem
      · intro hmem
        refine List.mem_filter.2 ⟨hmem, ?_⟩
        have : ¬ (c.x = x ∧ c.y = y) := fun hxy => hc (Coord.eq_mk_iff.2 hxy)
        simp only [Bool.not_eq_true', Bool.and_eq_false_iff]
        rcases Decidable.not_and_iff_or_not.1 this with h | h
        · exact Or.inl (by simpa using h)
        · exact Or.inr (by simpa using h)

theorem spec_C3_witness :
    ∃ gs', claimTile wC1Gs0 "A" 4 3 10 0 = some (true, gs') ∧
      (∃ p', findPlayer gs'.players "A" = some p' ∧
        p'.gold = (seededPlayer ⟨3, 3⟩ wC1P).gold - 10 ∧
        p'.tiles = (seededPlayer ⟨3, 3⟩ wC1P).tiles ++ [⟨4, 3⟩] ∧
        (isContested (mkBlankTile 4 3) "A" = true →
          p'.units = (seededPlayer ⟨3, 3⟩ wC1P).units - 0) ∧
        (isContested (mkBlankTile 4 3) "A" = false →
          p'.units = (seededPlayer ⟨3, 3⟩ wC1P).units)) ∧
      (∃ t', getTile gs'.grid 4 3 = some t' ∧ t'.ownerId = some "A" ∧
        t'.color = some (seededPlayer ⟨3, 3⟩ wC1P).color) ∧
      (∀ q pq, (mkBlankTile 4 3).ownerId = some q → q ≠ "A" →
        findPlayer wC1Gs0.players q = some pq →
        ∃ pq', findPlayer gs'.players q = some pq' ∧
          (⟨4, 3⟩ : Coord) ∉ pq'.tiles ∧
          ∀ c : Coord, c ≠ ⟨4, 3⟩ → (c ∈ pq'.tiles ↔ c ∈ pq.tiles)) := by
  apply spec_C3 wC1Gs0 "A" 4 3 10 0 (mkBlankTile 4 3)
    (seededPlayer ⟨3, 3⟩ wC1P) rfl rfl
  · exact init_tilesInv [wC1P] 0
      (show (List.map Player.id [wC1P]).Nodup by decide) (by decide)
  · decide
  · refine ⟨3, 3, ?_, by decide⟩
    rw [show wC1Gs0.grid = updateGrid mkEmptyGrid 3 3 (ownFn wC1P)
      from init_grid_one wC1P 0]
    exact (ownsAt_seed1 wC1P "A" 3 3).2 ⟨rfl, rfl, rfl⟩
  · intro q hq
    cases hq

/-- Claim C10: claimTile does not reject a target the caller already owns:
with enough gold and adjacency to another owned tile it succeeds, deducts
the gold cost, leaves units untouched, and appends a duplicate of the
already-present coordinate to the caller's tiles list. -/
theorem spec_C10 (gs : GameState) (myId : String) (x y : Nat)
    (goldCost unitCost : ℚ) (tile : Tile) (player : Player)
    (hT : getTile gs.grid x y = some tile)
    (hOwnSelf : tile.ownerId = some myId)
    (hP : findPlayer gs.players myId = some player)
    (hInv : tilesInv gs)
    (hg : goldCost ≤ player.gold)
    (hAdj : ∃ i j, ownsAt gs.grid myId i j ∧ ¬ (i = x ∧ j = y) ∧
      isAdjacentCoord ⟨i, j⟩ x y = true) :
    ∃ gs', claimTile gs myId x y goldCost unitCost = some (true, gs') ∧
      (⟨x, y⟩ : Coord) ∈ player.tiles ∧
      ∃ p', findPlayer gs'.players myId = some p' ∧
        p'.gold = player.gold - goldCost ∧
        p'.units = player.units ∧
        p'.tiles = player.tiles ++ [⟨x, y⟩] := by
  have hpid : player.id = myId := findPlayer_some_id hP
  have hc : isContested tile myId = false := by
    rw [isContested, hOwnSelf]
    simp
  have hadj : hasAdjacentTile player x y = true := by
    obtain ⟨i, j, hOwn, _, hac⟩ := hAdj
    rw [hasAdjacentTile, List.any_eq_true]
    refine ⟨⟨i, j⟩, ?_, hac⟩
    rw [hInv player (findPlayer_mem hP) ⟨i, j⟩, hpid]
    exact hOwn
  have hg' : ¬ player.gold < goldCost := not_lt.2 hg
  have hu' : ¬ (isContested tile myId = true ∧ player.units < unitCost) := by
    rintro ⟨hcont, _⟩
    rw [hc] at hcont
    cases hcont
  refine ⟨claimEffect gs myId x y goldCost unitCost tile player,
    claimTile_success_shape hT hP hg' hu' hadj, ?_, ?_⟩
  · rw [hInv player (findPlayer_mem hP) ⟨x, y⟩, hpid]
    exact ⟨tile, hT, hOwnSelf⟩
  · rw [claimEffect_players, findPlayer_claimPlayers, hP, Option.map_some']
    rw [claimPlayerFn_actor_uncontested hc hpid]
    exact ⟨_, rfl, rfl, rfl, rfl⟩

/-- A two-tile one-row grid fully owned by player A. -/
def w10t0 : Tile :=
  { x := 0, y := 0, ownerId := some "A", color := some "c1",
    construct := none, defenseBonus := 0 }

/-- The second tile of that grid, also owned by A. -/
def w10t1 : Tile :=
  { x := 1, y := 0, ownerId := some "A", color := some "c1",
    construct := none, defenseBonus := 0 }

/-- Player A owning both tiles of the two-tile grid. -/
def w10P : Player :=
  { id := "A", name := "alice", isReady := true, color := "c1",
    faction := Faction.HUMANS, gold := 5, units := 2, goldRate := 1,
    unitRate := 0, tiles := [⟨0, 0⟩, ⟨1, 0⟩] }

/-- A consistent snapshot over the two-tile grid. -/
def w10Gs : GameState :=
  { gameStarted := true, currentTurn := some "A", grid := [[w10t0, w10t1]],
    players := [w10P], gameEndTime := some 300000, gameOver := false,
    winner := none }

theorem w10Gs_tilesInv : tilesInv w10Gs := by
  intro p hp c
  have hp' : p = w10P := by simpa [w10Gs] using hp
  subst hp'
  constructor
  · intro hc
    have hcc : c = ⟨0, 0⟩ ∨ c = ⟨1, 0⟩ := by simpa [w10P] using hc
    rcases hcc with rfl | rfl
    · exact ⟨w10t0, rfl, rfl⟩
    · exact ⟨w10t1, rfl, rfl⟩
  · rintro ⟨t, ht, hown⟩
    rcases c with ⟨cx, cy⟩
    rcases cy with _ | cy
    · rcases cx with _ | _ | cx
      · simp only [w10Gs, getTile, List.get?, Option.some_bind] at ht
        cases Option.some.inj ht
        simp [w10P]
      · simp only [w10Gs, getTile, List.get?, Option.some_bind] at ht
        cases Option.some.inj ht
        simp [w10P]
      · simp [w10Gs, getTile, List.get?] at ht
    · simp [w10Gs, getTile, List.get?] at ht

theorem spec_C10_witness :
    ∃ gs', claimTile w10Gs "A" 1 0 2 7 = some (true, gs') ∧
      (⟨1, 0⟩ : Coord) ∈ w10P.tiles ∧
      ∃ p', findPlayer gs'.players "A" = some p' ∧
        p'.gold = w10P.gold - 2 ∧
        p'.units = w10P.units ∧
        p'.tiles = w10P.tiles ++ [⟨1, 0⟩] := by
  apply spec_C10 w10Gs "A" 1 0 2 7 w10t1 w10P rfl rfl rfl w10Gs_tilesInv
    (by decide)
  exact ⟨0, 0, ⟨w10t0, rfl, rfl⟩, by decide, by decide⟩

/-- Claim C4: after a successful claimTile, if exactly one player in the
roster holds a non-empty tiles set, the resulting state has gameOver true
and that player as winner; if at least two players still hold tiles,
gameOver and winner are unchanged from the pre-claim state. -/
theorem spec_C4 (gs gs' : GameState) (myId : String) (x y : Nat)
    (goldCost unitCost : ℚ)
    (hN : idsNodup gs.players)
    (h : claimTile gs myId x y goldCost unitCost = some (true, gs')) :
    (∀ w ∈ gs'.players, w.tiles ≠ [] →
      (∀ q ∈ gs'.players, q.tiles ≠ [] → q = w) →
      gs'.gameOver = true ∧ gs'.winner = some w.id) ∧
    (∀ w1 ∈ gs'.players, ∀ w2 ∈ gs'.players, w1 ≠ w2 →
      w1.tiles ≠ [] → w2.tiles ≠ [] →
      gs'.gameOver = gs.gameOver ∧ gs'.winner = gs.winner) := by
  rcases claimTile_cases h with ⟨hb, _⟩ |
    ⟨_, tile, player, hT, hP, _, _, _, hgs⟩
  · cases hb
  · subst hgs
    have hps := claimEffect_players gs myId x y goldCost unitCost tile player
    have hnd : (claimPlayers gs.players myId x y goldCost unitCost tile).Nodup := by
      have hids : ((claimPlayers gs.players myId x y goldCost unitCost
          tile).map Player.id).Nodup := by
        rw [claimPlayers_ids]
        exact hN
      exact hids.of_map
    constructor
    · intro w hw hwt huniq
      rw [hps] at hw huniq
      have hfil := filter_eq_singleton_of_unique
        (g := fun p => p.tiles.length > 0) hnd hw
        (by simpa [List.length_pos] using hwt)
        (fun q hq hpq => huniq q hq (by simpa [List.length_pos] using hpq))
      exact claimEffect_single hfil
    · intro w1 hw1 w2 hw2 hne ht1 ht2
      rw [hps] at hw1 hw2
      apply claimEffect_not_single
      exact filter_ne_singleton hw1 hw2 hne
        (by simpa [List.length_pos] using ht1)
        (by simpa [List.length_pos] using ht2)

/-- Tile owned by A in the two-player elimination scenario. -/
def w4t0 : Tile :=
  { x := 0, y := 0, ownerId := some "A", color := some "c1",
    construct := none, defenseBonus := 0 }

/-- Tile owned by B, B's only tile. -/
def w4t1 : Tile :=
  { x := 1, y := 0, ownerId := some "B", color := some "c2",
    construct := none, defenseBonus := 0 }

/-- Player A of the elimination scenario. -/
def w4A : Player :=
  { id := "A", name := "alice", isReady := true, color := "c1",
    faction := Faction.HUMANS, gold := 0, units := 0, goldRate := 1,
    unitRate := 0, tiles := [⟨0, 0⟩] }

/-- Player B of the elimination scenario, holding only tile (1,0). -/
def w4B : Player :=
  { id := "B", name := "bob", isReady := true, color := "c2",
    faction := Faction.ALIENS, gold := 0, units := 0, goldRate := 1,
    unitRate := 1, tiles := [⟨1, 0⟩] }

/-- The pre-claim snapshot of the elimination scenario. -/
def w4Gs0 : GameState :=
  { gameStarted := true, currentTurn := some "A", grid := [[w4t0, w4t1]],
    players := [w4A, w4B], gameEndTime := some 300000, gameOver := false,
    winner := none }

/-- The snapshot after A captures B's only tile. -/
def w4Gs1 : GameState :=
  match claimTile w4Gs0 "A" 1 0 0 0 with
  | some (_, s) => s
  | none => w4Gs0

/-- The sole remaining active player after the capture. -/
def w4win : Player :=
  { w4A with gold := w4A.gold - 0, units := w4A.units - 0,
             tiles := w4A.tiles ++ [⟨1, 0⟩] }

/-- Player B after losing its only tile. -/
def w4Bend : Player :=
  { w4B with tiles := w4B.tiles.filter (fun c => !(c.x == 1 && c.y == 0)) }

theorem spec_C4_witness : w4Gs1.gameOver = true ∧ w4Gs1.winner = some "A" := by
  have h := spec_C4 w4Gs0 w4Gs1 "A" 1 0 0 0
    (show (List.map Player.id [w4A, w4B]).Nodup by decide) rfl
  have hplayers : w4Gs1.players = [w4win, w4Bend] := rfl
  have hmem : w4win ∈ w4Gs1.players := by
    rw [hplayers]
    exact List.mem_cons_self _ _
  have hwt : w4win.tiles ≠ [] := by simp [w4win, w4A]
  have huniq : ∀ q ∈ w4Gs1.players, q.tiles ≠ [] → q = w4win := by
    rw [hplayers]
    intro q hq hqt
    rcases List.mem_cons.1 hq with rfl | hq2
    · rfl
    · rcases List.mem_singleton.1 hq2 with rfl
      exact absurd rfl hqt
  have ha := h.1 w4win hmem hwt huniq
  exact ⟨ha.1, ha.2⟩

/-- Claim C7: on a tile the caller owns with no construct and enough gold,
building a construct and immediately demolishing it restores goldRate and
unitRate to their pre-build values and clears the tile's construct; for a
DEFENSE construct the tile's defenseBonus ends at 0, and otherwise the
defenseBonus is unchanged. -/
theorem spec_C7 (gs : GameState) (myId : String) (x y : Nat)
    (ct : ConstructType) (tile : Tile) (player : Player) (goldCost : ℚ)
    (hT : getTile gs.grid x y = some tile)
    (hOwn : tile.ownerId = some myId)
    (hCon : tile.construct = none)
    (hC : constructGoldCost ct = some goldCost)
    (hP : findPlayer gs.players myId = some player)
    (hg : goldCost ≤ player.gold) :
    ∃ gs1 gs2,
      buildConstruct gs myId x y ct = some (true, gs1) ∧
      demolishConstruct gs1 myId x y = some (true, gs2) ∧
      (∃ p2, findPlayer gs2.players myId = some p2 ∧
        p2.goldRate = player.goldRate ∧ p2.unitRate = player.unitRate) ∧
      (∃ t2, getTile gs2.grid x y = some t2 ∧ t2.construct = none ∧
        (ct = .DEFENSE → t2.defenseBonus = 0) ∧
        (ct ≠ .DEFENSE → t2.defenseBonus = tile.defenseBonus)) := by
  obtain ⟨gs1, hgs1, hgrid1, hplayers1⟩ :
      ∃ gs1, buildConstruct gs myId x y ct = some (true, gs1) ∧
        gs1.grid = buildGrid gs.grid x y myId ct ∧
        gs1.players = buildPlayers gs.players myId goldCost ct :=
    ⟨_, buildConstruct_success_shape hT hOwn hCon hC hP (not_lt.2 hg), rfl, rfl⟩
  have hT1 : getTile gs1.grid x y =
      some (if ct = .DEFENSE then
        { tile with construct := some ⟨ct, some myId⟩, defenseBonus := 10 }
      else { tile with construct := some ⟨ct, some myId⟩ }) := by
    rw [hgrid1]
    exact getTile_buildGrid_self hT myId ct
  have hOwn1 : (if ct = ConstructType.DEFENSE then
      { tile with construct := some ⟨ct, some myId⟩, defenseBonus := 10 }
    else { tile with construct := some ⟨ct, some myId⟩ }).ownerId =
      some myId := by
    by_cases hd : ct = ConstructType.DEFENSE
    · rw [if_pos hd]
      exact hOwn
    · rw [if_neg hd]
      exact hOwn
  have hCon1 : (if ct = ConstructType.DEFENSE then
      { tile with construct := some ⟨ct, some myId⟩, defenseBonus := 10 }
    else { tile with construct := some ⟨ct, some myId⟩ }).construct =
      some ⟨ct, some myId⟩ := by
    by_cases hd : ct = ConstructType.DEFENSE
    · rw [if_pos hd]
    · rw [if_neg hd]
  obtain ⟨gs2, hgs2, hgrid2, hplayers2⟩ :
      ∃ gs2, demolishConstruct gs1 myId x y = some (true, gs2) ∧
        gs2.grid = demolishGrid gs1.grid x y ct ∧
        gs2.players = demolishPlayers gs1.players myId ct :=
    ⟨_, demolishConstruct_success_shape hT1 hOwn1 hCon1, rfl, rfl⟩
  refine ⟨gs1, gs2, hgs1, hgs2, ?_, ?_⟩
  · rw [hplayers2, hplayers1]
    rcases ct with _ | _ | _ | _
    · rw [findPlayer_demolishPlayers_self ConstructType.GOLD
        (findPlayer_buildPlayers_self ConstructType.GOLD hP)]
      rw [if_pos rfl, if_pos rfl]
      refine ⟨_, rfl, ?_, rfl⟩
      show player.goldRate + 1 - 1 = player.goldRate
      ring
    · rw [findPlayer_demolishPlayers_self ConstructType.UNIT
        (findPlayer_buildPlayers_self ConstructType.UNIT hP)]
      rw [if_neg (by decide), if_pos rfl, if_neg (by decide), if_pos rfl]
      refine ⟨_, rfl, rfl, ?_⟩
      show player.unitRate + 1 - 1 = player.unitRate
      ring
    · rw [findPlayer_demolishPlayers_self ConstructType.DEFENSE
        (findPlayer_buildPlayers_self ConstructType.DEFENSE hP)]
      rw [if_neg (by decide), if_neg (by decide), if_neg (by decide),
        if_neg (by decide)]
      exact ⟨_, rfl, rfl, rfl⟩
    · exact absurd hC (by simp [constructGoldCost])
  · rw [hgrid2]
    have hT2 := getTile_demolishGrid_self hT1 ct
    rcases ct with _ | _ | _ | _
    · rw [if_neg (by decide)] at hT2
      rw [hT2, if_neg (by decide)]
      exact ⟨_, rfl, rfl, fun hd => absurd hd (by decide), fun _ => rfl⟩
    · rw [if_neg (by decide)] at hT2
      rw [hT2, if_neg (by decide)]
      exact ⟨_, rfl, rfl, fun hd => absurd hd (by decide), fun _ => rfl⟩
    · rw [if_pos rfl] at hT2
      rw [hT2, if_pos rfl]
      exact ⟨_, rfl, rfl, fun _ => rfl, fun hd => absurd rfl hd⟩
    · exact absurd hC (by simp [constructGoldCost])

/-- A one-tile grid owned by A with no construct, A holding 25 gold. -/
def w7t0 : Tile :=
  { x := 0, y := 0, ownerId := some "A", color := some "c1",
    construct := none, defenseBonus := 0 }

/-- The player of the construct round-trip scenario. -/
def w7P : Player :=
  { id := "A", name := "alice", isReady := true, color := "c1",
    faction := Faction.ROBOTS, gold := 25, units := 0, goldRate := 1,
    unitRate := 0, tiles := [⟨0, 0⟩] }

/-- The snapshot of the construct round-trip scenario. -/
def w7Gs : GameState :=
  { gameStarted := true, currentTurn := some "A", grid := [[w7t0]],
    players := [w7P], gameEndTime := some 300000, gameOver := false,
    winner := none }

theorem spec_C7_witness :
    ∃ gs1 gs2,
      buildConstruct w7Gs "A" 0 0 ConstructType.GOLD = some (true, gs1) ∧
      demolishConstruct gs1 "A" 0 0 = some (true, gs2) ∧
      (∃ p2, findPlayer gs2.players "A" = some p2 ∧
        p2.goldRate = w7P.goldRate ∧ p2.unitRate = w7P.unitRate) ∧
      (∃ t2, getTile gs2.grid 0 0 = some t2 ∧ t2.construct = none ∧
        (ConstructType.GOLD = ConstructType.DEFENSE → t2.defenseBonus = 0) ∧
        (ConstructType.GOLD ≠ ConstructType.DEFENSE →
          t2.defenseBonus = w7t0.defenseBonus)) :=
  spec_C7 w7Gs "A" 0 0 ConstructType.GOLD w7t0 w7P 20 rfl rfl rfl rfl rfl
    (by decide)

theorem tickPlayer_of_nonempty {p : Player} (h : p.tiles ≠ []) :
    tickPlayer p = { p with gold := p.gold + p.goldRate / 10,
                            units := p.units + p.unitRate / 10 } := by
  unfold tickPlayer
  rw [if_neg (by simpa using h)]

theorem tickPlayer_of_empty {p : Player} (h : p.tiles = []) :
    tickPlayer p = p := by
  unfold tickPlayer
  rw [if_pos (by simp [h])]

/-- Claim C8: on a ticker firing strictly before gameEndTime, every player
with a non-empty tiles set gains exactly goldRate/10 gold and unitRate/10
units, players with an empty tiles set are untouched, and consequently a
player with a non-empty tiles set accrues n * goldRate/10 gold over n such
ticks (so gold 0 and goldRate 1 yield exactly 1 after 10 ticks in this
rational-number model of JavaScript floats). -/
theorem spec_C8 (gs : GameState) (now e : Nat)
    (hE : gs.gameEndTime = some e) (hNow : now < e) :
    (∀ k p, gs.players.get? k = some p → p.tiles ≠ [] →
      (updateResources gs now).players.get? k =
        some { p with gold := p.gold + p.goldRate / 10,
                      units := p.units + p.unitRate / 10 }) ∧
    (∀ k p, gs.players.get? k = some p → p.tiles = [] →
      (updateResources gs now).players.get? k = some p) ∧
    (∀ pid p n, findPlayer gs.players pid = some p → p.tiles ≠ [] →
      ∃ p', findPlayer (((fun s => updateResources s now)^[n] gs)).players pid
          = some p' ∧
        p'.gold = p.gold + n * (p.goldRate / 10) ∧
        p'.units = p.units + n * (p.unitRate / 10)) := by
  refine ⟨?_, ?_, ?_⟩
  · intro k p hk ht
    rw [updateResources_accrual gs now e hE hNow]
    show (gs.players.map tickPlayer).get? k = _
    rw [List.get?_map, hk, Option.map_some', tickPlayer_of_nonempty ht]
  · intro k p hk ht
    rw [updateResources_accrual gs now e hE hNow]
    show (gs.players.map tickPlayer).get? k = _
    rw [List.get?_map, hk, Option.map_some', tickPlayer_of_empty ht]
  · intro pid p n hP ht
    obtain ⟨h1, _⟩ := iterate_tick_findPlayer gs now e pid p n hE hNow hP ht
    exact ⟨_, h1, rfl, rfl⟩

/-- The player of the ten-tick accrual scenario. -/
def w8P : Player :=
  { id := "A", name := "alice", isReady := true, color := "c1",
    faction := Faction.HUMANS, gold := 0, units := 0, goldRate := 1,
    unitRate := 0, tiles := [⟨0, 0⟩] }

/-- The snapshot of the ten-tick accrual scenario. -/
def w8Gs : GameState :=
  { gameStarted := true, currentTurn := some "A", grid := [[w10t0]],
    players := [w8P], gameEndTime := some 300000, gameOver := false,
    winner := none }

theorem spec_C8_witness :
    ∃ p', findPlayer (((fun s => updateResources s 0)^[10] w8Gs)).players "A"
        = some p' ∧ p'.gold = 1 := by
  obtain ⟨p', h1, h2, _⟩ := (spec_C8 w8Gs 0 300000 rfl (by decide)).2.2
    "A" w8P 10 rfl (by simp [w8P])
  refine ⟨p', h1, ?_⟩
  rw [h2]
  show w8P.gold + ((10 : ℕ) : ℚ) * (w8P.goldRate / 10) = 1
  norm_num [w8P]

/-- Claim C5 counterexample: two players tied at one tile each when time
runs out; the source's find-max loop declares the FIRST of them winner
rather than leaving winner null. -/
def c5A : Player :=
  { id := "A", name := "alice", isReady := true, color := "cA",
    faction := Faction.HUMANS, gold := 0, units := 0, goldRate := 1,
    unitRate := 0, tiles := [] }

/-- The second player of the tied end-of-time scenario. -/
def c5B : Player :=
  { id := "B", name := "bob", isReady := true, color := "cB",
    faction := Faction.ALIENS, gold := 0, units := 0, goldRate := 1,
    unitRate := 0, tiles := [] }

/-- The game that starts with those two players and runs to its end time. -/
def c5Gs : GameState := initializeGameState [c5A, c5B] 0

theorem spec_C5_cex :
    c5Gs.players.map (fun p => p.tiles.length) = [1, 1] ∧
    (updateResources c5Gs 300000).gameOver = true ∧
    (updateResources c5Gs 300000).winner ≠ none ∧
    (updateResources c5Gs 300000).winner = some "A" := by
  refine ⟨rfl, rfl, ?_, rfl⟩
  intro hc
  rw [show (updateResources c5Gs 300000).winner = some "A" from rfl] at hc
  cases hc

/-- Claim C5 (amended): when the ticker fires with gameEndTime set and now
at or past it, gameOver becomes true and the winner is the first player in
roster order with positive tile count that strictly exceeds every earlier
count and is not exceeded later; in particular the strictly-highest player
wins, and a tie for the highest count goes to the earliest such player
instead of leaving winner null. -/
theorem spec_C5_amended (gs : GameState) (now e : Nat)
    (l1 : List Player) (w : Player) (l2 : List Player)
    (hE : gs.gameEndTime = some e) (hNow : e ≤ now)
    (hsplit : gs.players = l1 ++ w :: l2)
    (hpos : 0 < w.tiles.length)
    (h1 : ∀ q ∈ l1, q.tiles.length < w.tiles.length)
    (h2 : ∀ q ∈ l2, q.tiles.length ≤ w.tiles.length) :
    (updateResources gs now).gameOver = true ∧
    (updateResources gs now).winner = some w.id := by
  rw [updateResources_gameEnd gs now e hE hNow]
  refine ⟨rfl, ?_⟩
  show scanWinner gs.players 0 none = some w.id
  rw [hsplit]
  exact scanWinner_first_max l1 w l2 0 none hpos h1 h2

/-- Player A with the strictly highest tile count at time-out. -/
def w5A : Player :=
  { id := "A", name := "alice", isReady := true, color := "c1",
    faction := Faction.HUMANS, gold := 0, units := 0, goldRate := 1,
    unitRate := 0, tiles := [⟨0, 0⟩, ⟨1, 0⟩] }

/-- Player B with fewer tiles at time-out. -/
def w5B : Player :=
  { id := "B", name := "bob", isReady := true, color := "c2",
    faction := Faction.ALIENS, gold := 0, units := 0, goldRate := 1,
    unitRate := 1, tiles := [⟨2, 0⟩] }

/-- The end-of-time scenario with counts A:2, B:1. -/
def w5Gs : GameState :=
  { gameStarted := true, currentTurn := some "A",
    grid := [[w10t0, w10t1,
      { x := 2, y := 0, ownerId := some "B", color := some "c2",
        construct := none, defenseBonus := 0 }]],
    players := [w5A, w5B], gameEndTime := some 300000, gameOver := false,
    winner := none }

theorem spec_C5_witness :
    (updateResources w5Gs 300000).gameOver = true ∧
    (updateResources w5Gs 300000).winner = some "A" := by
  have h := spec_C5_amended w5Gs 300000 300000 [] w5A [w5B] rfl le_rfl rfl
    (by decide) (by simp) (by decide)
  exact ⟨h.1, h.2⟩

/-! ### Grid geometry of the initial state -/

theorem listUpdate_length {α : Type} (l : List α) (i : Nat) (f : α → α) :
    (listUpdate l i f).length = l.length := by
  induction l generalizing i with
  | nil => rfl
  | cons a t ih =>
    cases i with
    | zero => rfl
    | succ n => simp [listUpdate, ih]

theorem mem_listUpdate {α : Type} {l : List α} {i : Nat} {f : α → α} {a : α}
    (h : a ∈ listUpdate l i f) : a ∈ l ∨ ∃ b ∈ l, a = f b := by
  induction l generalizing i with
  | nil => cases h
  | cons x t ih =>
    cases i with
    | zero =>
      rcases List.mem_cons.1 h with rfl | ht
      · exact Or.inr ⟨x, List.mem_cons_self x t, rfl⟩
      · exact Or.inl (List.mem_cons_of_mem x ht)
    | succ n =>
      rcases List.mem_cons.1 h with rfl | ht
      · exact Or.inl (List.mem_cons_self a t)
      · rcases ih ht with h1 | ⟨b, hb, rfl⟩
        · exact Or.inl (List.mem_cons_of_mem x h1)
        · exact Or.inr ⟨b, List.mem_cons_of_mem x hb, rfl⟩

theorem updateGrid_dims {g : List (List Tile)} {x y : Nat} {f : Tile → Tile}
    (h1 : g.length = GRID_SIZE) (h2 : ∀ row ∈ g, row.length = GRID_SIZE) :
    (updateGrid g x y f).length = GRID_SIZE ∧
    ∀ row ∈ updateGrid g x y f, row.length = GRID_SIZE := by
  constructor
  · rw [updateGrid, listUpdate_length]
    exact h1
  · intro row hrow
    rcases mem_listUpdate hrow with hr | ⟨r, hr, rfl⟩
    · exact h2 row hr
    · rw [listUpdate_length]
      exact h2 r hr

theorem mkEmptyGrid_dims :
    mkEmptyGrid.length = GRID_SIZE ∧
    ∀ row ∈ mkEmptyGrid, row.length = GRID_SIZE := by
  constructor
  · simp [mkEmptyGrid]
  · intro row hrow
    obtain ⟨yy, _, rfl⟩ := List.mem_map.1 hrow
    simp

theorem seedGrid_dims (l : List (Nat × Player)) (g : List (List Tile))
    (h1 : g.length = GRID_SIZE) (h2 : ∀ row ∈ g, row.length = GRID_SIZE) :
    (seedGrid g l).length = GRID_SIZE ∧
    ∀ row ∈ seedGrid g l, row.length = GRID_SIZE := by
  induction l generalizing g with
  | nil => exact ⟨h1, h2⟩
  | cons ip rest ih =>
    obtain ⟨i, p⟩ := ip
    show (seedGrid g ((i, p) :: rest)).length = GRID_SIZE ∧ _
    rw [seedGrid]
    cases hpos : startingPositions.get? i with
    | none => exact ih g h1 h2
    | some pos =>
      obtain ⟨d1, d2⟩ := updateGrid_dims (x := pos.x) (y := pos.y)
        (f := fun t => { t with ownerId := some p.id, color := some p.color })
        h1 h2
      exact ih _ d1 d2

theorem init_grid_dims (ps : List Player) (now : Nat) :
    (initializeGameState ps now).grid.length = GRID_SIZE ∧
    ∀ row ∈ (initializeGameState ps now).grid, row.length = GRID_SIZE := by
  show (seedGrid mkEmptyGrid ps.enum).length = GRID_SIZE ∧ _
  exact seedGrid_dims ps.enum mkEmptyGrid mkEmptyGrid_dims.1 mkEmptyGrid_dims.2

/-- Claim C6 counterexample: with two players, the second starting position
the code assigns is (20,20), not the (21,21) the claim states, and the
(21,21) cell remains an unowned blank tile. -/
def c6A : Player :=
  { id := "A", name := "alice", isReady := true, color := "cA",
    faction := Faction.HUMANS, gold := 0, units := 0, goldRate := 1,
    unitRate := 0, tiles := [] }

/-- The second player of the starting-position scenario. -/
def c6B : Player :=
  { id := "B", name := "bob", isReady := true, color := "cB",
    faction := Faction.ROBOTS, gold := 0, units := 0, goldRate := 1,
    unitRate := 0, tiles := [] }

theorem spec_C6_cex :
    (initializeGameState [c6A, c6B] 0).players.map Player.tiles =
      [[⟨3, 3⟩], [⟨20, 20⟩]] ∧
    getTile (initializeGameState [c6A, c6B] 0).grid 21 21 =
      some (mkBlankTile 21 21) := ⟨rfl, rfl⟩

/-- Claim C6 (amended): game-start initialization builds an empty
GRID_SIZE by GRID_SIZE grid and assigns the fixed starting coordinates
(3,3), (20,20), (3,20) — not (21,21)/(3,21) — in roster order to the first
min(playerCount, 3) players, seeding each starting tile's owner and color,
setting that player's tiles to exactly that coordinate, giving ALIENS
players unitRate 1 while others keep their unitRate, leaving every other
cell blank, and setting gameEndTime to now + 300000ms with gameOver false
and winner null. -/
theorem spec_C6_amended (ps : List Player) (now : Nat)
    (hLen : ps.length ≤ MAX_PLAYERS) :
    startingPositions = [⟨3, 3⟩, ⟨20, 20⟩, ⟨3, 20⟩] ∧
    (initializeGameState ps now).grid.length = GRID_SIZE ∧
    (∀ row ∈ (initializeGameState ps now).grid, row.length = GRID_SIZE) ∧
    (∀ k p pos, ps.get? k = some p → startingPositions.get? k = some pos →
      (∃ t, getTile (initializeGameState ps now).grid pos.x pos.y = some t ∧
        t.ownerId = some p.id ∧ t.color = some p.color) ∧
      (initializeGameState ps now).players.get? k =
        some (seededPlayer pos p)) ∧
    (∀ i j, i < GRID_SIZE → j < GRID_SIZE →
      (∀ k p pos, ps.get? k = some p → startingPositions.get? k = some pos →
        ¬ (i = pos.x ∧ j = pos.y)) →
      getTile (initializeGameState ps now).grid i j =
        some (mkBlankTile i j)) ∧
    (initializeGameState ps now).gameEndTime =
      some (now + GAME_DURATION_MS) ∧
    (initializeGameState ps now).gameOver = false ∧
    (initializeGameState ps now).winner = none := by
  refine ⟨rfl, (init_grid_dims ps now).1, (init_grid_dims ps now).2,
    ?_, ?_, rfl, rfl, rfl⟩
  · intro k p pos hk hpos
    rcases ps with _ | ⟨p0, _ | ⟨p1, _ | ⟨p2, rest⟩⟩⟩
    · simp at hk
    · rcases k with _ | k
      · cases Option.some.inj hk
        cases Option.some.inj hpos
        refine ⟨⟨ownFn p (mkBlankTile 3 3), ?_, rfl, rfl⟩, rfl⟩
        rw [init_grid_one]
        rw [getTile_updateGrid_self, getTile_mkEmptyGrid,
          if_pos (by decide : (3:Nat) < GRID_SIZE ∧ (3:Nat) < GRID_SIZE),
          Option.map_some']
      · simp at hk
    · rcases k with _ | _ | k
      · cases Option.some.inj hk
        cases Option.some.inj hpos
        refine ⟨⟨ownFn p (mkBlankTile 3 3), ?_, rfl, rfl⟩, rfl⟩
        rw [init_grid_two]
        rw [getTile_updateGrid_comm_other (by decide),
          getTile_updateGrid_self, getTile_mkEmptyGrid,
          if_pos (by decide : (3:Nat) < GRID_SIZE ∧ (3:Nat) < GRID_SIZE),
          Option.map_some']
      · cases Option.some.inj hk
        cases Option.some.inj hpos
        refine ⟨⟨ownFn p (mkBlankTile 20 20), ?_, rfl, rfl⟩, rfl⟩
        rw [init_grid_two]
        show getTile _ 20 20 = _
        rw [getTile_updateGrid_self, getTile_updateGrid_comm_other (by decide),
          getTile_mkEmptyGrid,
          if_pos (by decide : (20:Nat) < GRID_SIZE ∧ (20:Nat) < GRID_SIZE),
          Option.map_some']
      · simp at hk
    · have hrest : rest = [] := by
        simp only [List.length_cons, MAX_PLAYERS] at hLen
        exact List.length_eq_zero.1 (by omega)
      subst hrest
      rcases k with _ | _ | _ | k
      · cases Option.some.inj hk
        cases Option.some.inj hpos
        refine ⟨⟨ownFn p (mkBlankTile 3 3), ?_, rfl, rfl⟩, rfl⟩
        rw [init_grid_three]
        rw [getTile_updateGrid_comm_other (by decide),
          getTile_updateGrid_comm_other (by decide),
          getTile_updateGrid_self, getTile_mkEmptyGrid,
          if_pos (by decide : (3:Nat) < GRID_SIZE ∧ (3:Nat) < GRID_SIZE),
          Option.map_some']
      · cases Option.some.inj hk
        cases Option.some.inj hpos
        refine ⟨⟨ownFn p (mkBlankTile 20 20), ?_, rfl, rfl⟩, rfl⟩
        rw [init_grid_three]
        show getTile _ 20 20 = _
        rw [getTile_updateGrid_comm_other (by decide),
          getTile_updateGrid_self, getTile_updateGrid_comm_other (by decide),
          getTile_mkEmptyGrid,
          if_pos (by decide : (20:Nat) < GRID_SIZE ∧ (20:Nat) < GRID_SIZE),
          Option.map_some']
      · cases Option.some.inj hk
        cases Option.some.inj hpos
        refine ⟨⟨ownFn p (mkBlankTile 3 20), ?_, rfl, rfl⟩, rfl⟩
        rw [init_grid_three]
        show getTile _ 3 20 = _
        rw [getTile_updateGrid_self,
          getTile_updateGrid_comm_other (by decide),
          getTile_updateGrid_comm_other (by decide),
          getTile_mkEmptyGrid,
          if_pos (by decide : (3:Nat) < GRID_SIZE ∧ (20:Nat) < GRID_SIZE),
          Option.map_some']
      · simp [startingPositions] at hpos
  · intro i j hi hj hnone
    rcases ps with _ | ⟨p0, _ | ⟨p1, _ | ⟨p2, rest⟩⟩⟩
    · rw [init_grid_nil, getTile_mkEmptyGrid, if_pos ⟨hi, hj⟩]
    · have h0 := hnone 0 p0 ⟨3, 3⟩ rfl rfl
      rw [init_grid_one,
        getTile_updateGrid_other _ _ _ _ _ _ h0,
        getTile_mkEmptyGrid, if_pos ⟨hi, hj⟩]
    · have h0 := hnone 0 p0 ⟨3, 3⟩ rfl rfl
      have h1 := hnone 1 p1 ⟨20, 20⟩ rfl rfl
      rw [init_grid_two,
        getTile_updateGrid_other _ _ _ _ _ _ h1,
        getTile_updateGrid_other _ _ _ _ _ _ h0,
        getTile_mkEmptyGrid, if_pos ⟨hi, hj⟩]
    · have h0 := hnone 0 p0 ⟨3, 3⟩ rfl rfl
      have h1 := hnone 1 p1 ⟨20, 20⟩ rfl rfl
      have h2 := hnone 2 p2 ⟨3, 20⟩ rfl rfl
      rw [init_grid_three,
        getTile_updateGrid_other _ _ _ _ _ _ h2,
        getTile_updateGrid_other _ _ _ _ _ _ h1,
        getTile_updateGrid_other _ _ _ _ _ _ h0,
        getTile_mkEmptyGrid, if_pos ⟨hi, hj⟩]

theorem spec_C6_witness :
    (∃ t, getTile (initializeGameState [c6A, c6B] 0).grid 20 20 = some t ∧
      t.ownerId = some "B" ∧ t.color = some "cB") ∧
    (initializeGameState [c6A, c6B] 0).players.get? 1 =
      some (seededPlayer ⟨20, 20⟩ c6B) := by
  have h := spec_C6_amended [c6A, c6B] 0 (by decide)
  have h4 := h.2.2.2.1 1 c6B ⟨20, 20⟩ rfl rfl
  exact ⟨h4.1, h4.2⟩

theorem spec_C9_cex :
    w4t1.ownerId = some "B" ∧
    claimTile w4Gs0 "A" 1 0 0 0 = some (true, w4Gs1) ∧
    w4Gs0.gameOver = false ∧
    w4Gs1.gameOver = true := ⟨rfl, rfl, rfl, rfl⟩

/-- Claim C9 (amended): a successful claimTile of a contested tile changes
only the tile's ownerId and color, the two involved players' resources and
tiles lists, and — when the capture leaves exactly one player holding
tiles — the gameOver and winner fields; the captured tile's construct
(including its stored ownerId) and its defenseBonus are left exactly as
they were, all other tiles are untouched, and bystander players are
unchanged. -/
theorem spec_C9_amended (gs gs' : GameState) (myId : String) (x y : Nat)
    (goldCost unitCost : ℚ) (tile : Tile) (prev : String)
    (h : claimTile gs myId x y goldCost unitCost = some (true, gs'))
    (hT : getTile gs.grid x y = some tile)
    (hOwn : tile.ownerId = some prev)
    (hprev : prev ≠ myId) :
    (∃ t', getTile gs'.grid x y = some t' ∧
      t'.construct = tile.construct ∧ t'.defenseBonus = tile.defenseBonus ∧
      t'.x = tile.x ∧ t'.y = tile.y) ∧
    (∀ i j, ¬ (i = x ∧ j = y) → getTile gs'.grid i j = getTile gs.grid i j) ∧
    (∀ r ∈ gs.players, r.id ≠ myId → r.id ≠ prev → r ∈ gs'.players) ∧
    (∀ pl, findPlayer gs.players myId = some pl →
      ∃ p', findPlayer gs'.players myId = some p' ∧
        p'.name = pl.name ∧ p'.isReady = pl.isReady ∧ p'.color = pl.color ∧
        p'.faction = pl.faction ∧ p'.goldRate = pl.goldRate ∧
        p'.unitRate = pl.unitRate) ∧
    (∀ pq, findPlayer gs.players prev = some pq →
      ∃ pq', findPlayer gs'.players prev = some pq' ∧
        pq'.gold = pq.gold ∧ pq'.units = pq.units ∧
        pq'.goldRate = pq.goldRate ∧ pq'.unitRate = pq.unitRate ∧
        pq'.name = pq.name) ∧
    gs'.gameStarted = gs.gameStarted ∧
    gs'.currentTurn = gs.currentTurn ∧
    gs'.gameEndTime = gs.gameEndTime ∧
    ((gs'.gameOver = gs.gameOver ∧ gs'.winner = gs.winner) ∨
     (gs'.gameOver = true ∧ ∃ w ∈ gs'.players, gs'.winner = some w.id)) := by
  rcases claimTile_cases h with ⟨hb, _⟩ |
    ⟨_, tile2, player, hT2, hP2, _, _, _, hgs⟩
  · cases hb
  · rw [hT] at hT2
    cases Option.some.inj hT2
    subst hgs
    refine ⟨?_, ?_, ?_, ?_, ?_, ?_, ?_, ?_, ?_⟩
    · rw [claimEffect_grid]
      unfold claimGrid
      rw [getTile_updateGrid_self, hT, Option.map_some']
      exact ⟨_, rfl, rfl, rfl, rfl, rfl⟩
    · intro i j hij
      rw [claimEffect_grid]
      unfold claimGrid
      exact getTile_updateGrid_other _ _ _ _ i j hij
    · intro r hr hrm hrp
      rw [claimEffect_players, claimPlayers_eq_map]
      have heq : claimPlayerFn myId x y goldCost unitCost tile r = r := by
        apply claimPlayerFn_other hrm
        rw [hOwn]
        intro hcon
        exact hrp (Option.some.inj hcon).symm
      have := List.mem_map_of_mem
        (claimPlayerFn myId x y goldCost unitCost tile) hr
      rwa [heq] at this
    · intro pl hPl
      rw [claimEffect_players, findPlayer_claimPlayers, hPl, Option.map_some']
      rw [claimPlayerFn_actor_contested hOwn hprev (findPlayer_some_id hPl)]
      exact ⟨_, rfl, rfl, rfl, rfl, rfl, rfl, rfl⟩
    · intro pq hq
      rw [claimEffect_players, findPlayer_claimPlayers, hq, Option.map_some']
      rw [claimPlayerFn_prev hOwn hprev (findPlayer_some_id hq)]
      exact ⟨_, rfl, rfl, rfl, rfl, rfl, rfl⟩
    · exact (claimEffect_misc gs myId x y goldCost unitCost tile player).1
    · exact (claimEffect_misc gs myId x y goldCost unitCost tile player).2.1
    · exact (claimEffect_misc gs myId x y goldCost unitCost tile player).2.2
    · exact claimEffect_gameOver_winner gs myId x y goldCost unitCost
        tile player

/-- Tile owned by A in the construct-retention capture scenario. -/
def w9t0 : Tile :=
  { x := 0, y := 0, ownerId := some "A", color := some "c1",
    construct := none, defenseBonus := 0 }

/-- B's tile carrying a DEFENSE construct and its flat bonus. -/
def w9t1 : Tile :=
  { x := 1, y := 0, ownerId := some "B", color := some "c2",
    construct := some ⟨ConstructType.DEFENSE, some "B"⟩, defenseBonus := 10 }

/-- The attacker of the construct-retention scenario. -/
def w9A : Player :=
  { id := "A", name := "alice", isReady := true, color := "c1",
    faction := Faction.HUMANS, gold := 12, units := 16, goldRate := 1,
    unitRate := 0, tiles := [⟨0, 0⟩] }

/-- The defender of the construct-retention scenario. -/
def w9B : Player :=
  { id := "B", name := "bob", isReady := true, color := "c2",
    faction := Faction.ROBOTS, gold := 0, units := 0, goldRate := 1,
    unitRate := 0, tiles := [⟨1, 0⟩] }

/-- The pre-capture snapshot of the construct-retention scenario. -/
def w9Gs0 : GameState :=
  { gameStarted := true, currentTurn := some "A", grid := [[w9t0, w9t1]],
    players := [w9A, w9B], gameEndTime := some 300000, gameOver := false,
    winner := none }

/-- The snapshot after A captures B's fortified tile. -/
def w9Gs1 : GameState :=
  match claimTile w9Gs0 "A" 1 0 12 15 with
  | some (_, s) => s
  | none => w9Gs0

theorem spec_C9_witness :
    ∃ t', getTile w9Gs1.grid 1 0 = some t' ∧
      t'.construct = some ⟨ConstructType.DEFENSE, some "B"⟩ ∧
      t'.defenseBonus = 10 := by
  obtain ⟨⟨t', h1, h2, h3, _⟩, _⟩ := spec_C9_amended w9Gs0 w9Gs1 "A" 1 0
    12 15 w9t1 "B" rfl rfl rfl (by decide)
  exact ⟨t', h1, h2, h3⟩

end WTO2
